import Mathlib

/-!
Verification development for the AdvanceValves PO/SO reconciliation scripts.

The repository contains two Python scripts:
* `src/script.py`  — `DocumentProcessor` (embedded below in namespace `Script1`)
* `src/script2.py` — `ValveProcessor`    (embedded below in namespace `Script2`)

Modelling conventions:
* Python strings are modelled as `String` / `List Char`.  Case conversion is
  modelled for ASCII (the documents and patterns are ASCII).
* Python regular expressions are modelled by a small backtracking matcher
  (`RE` / `reMatch`) whose alternatives are produced in Python's exploration
  order (greedy quantifiers longest-first, alternation left-first), so that
  "first match" in the model coincides with `re` semantics for the pattern
  set used by the scripts.
* Python `set` objects are modelled as duplicate-free lists in insertion
  order; all set operations used by the code are membership based.
* Prices (Python floats parsed from decimal literals) are modelled as exact
  rationals; arithmetic comparisons are implemented with `mkRat`/`Rat.blt`
  so that they compute, and are related to `<`/`≤` on `ℚ` by lemmas.
-/

/-! ### Character and string primitives -/

/-- ASCII whitespace, as matched by Python's `str.split`, `str.strip` and
the regex class used by the scripts. -/
def isWS (c : Char) : Bool :=
  c == ' ' || c == '\t' || c == '\n' || c == '\x0d' || c == '\x0c' || c == '\x0b'

/-- ASCII uppercasing, modelling Python `str.upper` on the ASCII inputs
handled by the scripts. -/
def upc (c : Char) : Char :=
  if 97 ≤ c.toNat ∧ c.toNat ≤ 122 then Char.ofNat (c.toNat - 32) else c

/-- ASCII lowercasing, modelling Python `str.lower`. -/
def loc (c : Char) : Char :=
  if 65 ≤ c.toNat ∧ c.toNat ≤ 90 then Char.ofNat (c.toNat + 32) else c

/-- Does the second list start with the first (exact characters)? -/
def hasPrefixChars : List Char → List Char → Bool
  | [], _ => true
  | _ :: _, [] => false
  | p :: ps, c :: cs => p == c && hasPrefixChars ps cs

/-- Python's substring test `pat in s`. -/
def hasSubChars : List Char → List Char → Bool
  | _, [] => true
  | [], _ => false
  | c :: rest, pat => hasPrefixChars pat (c :: rest) || hasSubChars rest pat

/-- Python's substring test on `String`s. -/
def strContains (s pat : String) : Bool := hasSubChars s.toList pat.toList

/-- Does the list end with the given suffix (exact characters)? -/
def endsWithChars (s pat : List Char) : Bool := hasPrefixChars pat.reverse s.reverse

/-- Drop leading whitespace (left half of Python `str.strip`). -/
def dropWsL : List Char → List Char
  | [] => []
  | c :: r => if isWS c then dropWsL r else c :: r

/-- Drop trailing whitespace (right half of Python `str.strip`). -/
def dropWsR (l : List Char) : List Char := (dropWsL l.reverse).reverse

/-- Python `str.strip`. -/
def pyStrip (l : List Char) : List Char := dropWsR (dropWsL l)

/-- Python `str.strip` on `String`s. -/
def pyStripS (s : String) : String := String.mk (pyStrip s.toList)

/-- Worker for whitespace collapsing: the flag records whether the previous
character was whitespace (already emitted as a single space). -/
def collapseAux : Bool → List Char → List Char
  | _, [] => []
  | inWs, c :: r =>
    if isWS c then
      if inWs then collapseAux true r else ' ' :: collapseAux true r
    else c :: collapseAux false r

/-- Python `re.sub(r'\s+', ' ', s)`: every whitespace run becomes one space. -/
def collapseWs (l : List Char) : List Char := collapseAux false l

/-- Words of a string (Python `str.split()` with no argument). -/
def pyWords : List Char → List Char → List (List Char)
  | cur, [] => if cur.isEmpty then [] else [cur.reverse]
  | cur, c :: r =>
    if isWS c then
      if cur.isEmpty then pyWords [] r else cur.reverse :: pyWords [] r
    else pyWords (c :: cur) r

/-- Python `' '.join(line.split())`. -/
def cleanLine (l : List Char) : List Char := List.intercalate [' '] (pyWords [] l)

/-- First run of four consecutive decimal digits (Python
`re.search(r'\d{4}', s)`), if any. -/
def firstFourDigits : List Char → Option (List Char)
  | c1 :: c2 :: c3 :: c4 :: rest =>
    if c1.isDigit && c2.isDigit && c3.isDigit && c4.isDigit then
      some [c1, c2, c3, c4]
    else firstFourDigits (c2 :: c3 :: c4 :: rest)
  | _ => none

/-- Python `int` on a string of decimal digits. -/
def digitsToNat (l : List Char) : Nat := l.foldl (fun a c => a * 10 + (c.toNat - 48)) 0

/-- Decimal rendering of a natural number (Python `str`). -/
def natToStrAux : Nat → Nat → List Char → List Char
  | 0, _, acc => acc
  | fuel + 1, n, acc =>
    let d := Char.ofNat (48 + n % 10)
    if n < 10 then d :: acc else natToStrAux fuel (n / 10) (d :: acc)

/-- Decimal rendering of a natural number (Python `str`). -/
def natToStr (n : Nat) : String := String.mk (natToStrAux (n + 1) n [])

/-- Worker for `replaceAll`; the fuel argument only forces structural
termination and is always supplied large enough to be irrelevant. -/
def replaceAllFuel (pat rep : List Char) : Nat → List Char → List Char
  | 0, s => s
  | _, [] => []
  | fuel + 1, c :: s =>
    if hasPrefixChars pat (c :: s) && !pat.isEmpty then
      rep ++ replaceAllFuel pat rep fuel ((c :: s).drop pat.length)
    else
      c :: replaceAllFuel pat rep fuel s

/-- Python `s.replace(pat, rep)` for a non-empty pattern: replace every
non-overlapping occurrence, scanning left to right. -/
def replaceAll (pat rep s : List Char) : List Char := replaceAllFuel pat rep s.length s

/-- Mutual membership-preserving insertion into a duplicate-free list,
modelling `set.add`. -/
def insertS (x : String) (l : List String) : List String :=
  if l.contains x then l else l ++ [x]

namespace Script1

/-- Models `DocumentProcessor.normalize_code` from `src/script.py`:
strip+uppercase, drop a trailing `[D]`, collapse whitespace, drop a trailing
`MR`, drop a leading `VALVE`/`CHECK` qualifier followed by whitespace, strip. -/
def normalize_code (s : String) : String :=
  String.mk (pyStrip (stripQual (dropMR (collapseWs (dropD ((pyStrip s.toList).map upc))))))
where
  /-- Python `re.sub(r'\[D\]$', '', s)`: remove one trailing `[D]`. -/
  dropD (l : List Char) : List Char :=
    if endsWithChars l ['[', 'D', ']'] then l.take (l.length - 3) else l
  /-- Python `re.sub(r'MR$', '', s)`: remove one trailing `MR`. -/
  dropMR (l : List Char) : List Char :=
    if endsWithChars l ['M', 'R'] then l.take (l.length - 2) else l
  /-- Python `re.sub(r'^\s*(?:VALVE|CHECK)\s+', '', s)`: at the start of the
  string, optional whitespace, then `VALVE` or `CHECK`, then at least one
  whitespace character (all consumed greedily); if the pattern does not match
  the string is unchanged. -/
  stripQual (l : List Char) : List Char :=
    match qualMatch l with
    | some r => r
    | none => l
  /-- The remainder after the leading-qualifier pattern, when it matches. -/
  qualMatch (l : List Char) : Option (List Char) :=
    let t := l.dropWhile isWS
    if hasPrefixChars ['V', 'A', 'L', 'V', 'E'] t then afterQual (t.drop 5)
    else if hasPrefixChars ['C', 'H', 'E', 'C', 'K'] t then afterQual (t.drop 5)
    else none
  /-- Require at least one whitespace character and consume the whole run. -/
  afterQual : List Char → Option (List Char)
    | [] => none
    | c :: r => if isWS c then some (r.dropWhile isWS) else none

end Script1

/-! ### A small backtracking regex engine

Only the constructs used by the scripts' patterns are supported: character
classes, sequencing, alternation, and greedy `*`/`+` over a character class.
`reMatch r s` returns the list of possible remainders after matching `r` at
the start of `s`, in Python's backtracking exploration order (greedy
quantifiers longest-first, alternation left-first); its head is the match
Python commits to.  Lookarounds and anchors are handled by the search
drivers below via explicit context checks. -/

inductive RE where
  | eps : RE
  | cls : (Char → Bool) → RE
  | seq : RE → RE → RE
  | alt : RE → RE → RE
  | starCls : (Char → Bool) → RE
  | plusCls : (Char → Bool) → RE

/-- Remainders after consuming `k` class characters, for `k` maximal down
to zero (greedy order). -/
def starSuffixes (p : Char → Bool) : List Char → List (List Char)
  | [] => [[]]
  | c :: rest => if p c then starSuffixes p rest ++ [c :: rest] else [c :: rest]

/-- All remainders after matching the pattern at the start of the input, in
backtracking priority order. -/
def reMatch : RE → List Char → List (List Char)
  | RE.eps, s => [s]
  | RE.cls _, [] => []
  | RE.cls p, c :: s => if p c then [s] else []
  | RE.seq a b, s => (reMatch a s).flatMap (reMatch b)
  | RE.alt a b, s => reMatch a s ++ reMatch b s
  | RE.starCls p, s => starSuffixes p s
  | RE.plusCls _, [] => []
  | RE.plusCls p, c :: s => if p c then starSuffixes p s else []

/-- Concatenation of a list of patterns. -/
def reCat (l : List RE) : RE := l.foldr RE.seq RE.eps

/-- Greedy optional pattern (`?`). -/
def reOpt (r : RE) : RE := RE.alt r RE.eps

/-- Fixed repetition (`{n}`). -/
def repN (n : Nat) (r : RE) : RE := reCat (List.replicate n r)

/-- Case-insensitive single character (the scripts compile their patterns
with `re.IGNORECASE`). -/
def chI (c : Char) : RE := RE.cls (fun x => upc x == upc c)

/-- Case-sensitive single character. -/
def chE (c : Char) : RE := RE.cls (fun x => x == c)

/-- Case-insensitive literal string. -/
def lit (t : String) : RE := reCat (t.toList.map chI)

/-- Case-sensitive literal string. -/
def litE (t : String) : RE := reCat (t.toList.map chE)

/-- Models `\s*` -/
def wsStar : RE := RE.starCls isWS

/-- Models `\s+` -/
def wsPlus : RE := RE.plusCls isWS

/-- Models `\d` -/
def dgt : RE := RE.cls Char.isDigit

/-- Models `\d+` -/
def dPlus : RE := RE.plusCls Char.isDigit

/-- Models `\d{2,4}` (greedy: longest first). -/
def d24 : RE := reCat [dgt, dgt, reOpt (RE.seq dgt (reOpt dgt))]

/-- Models `\d{3,4}` (greedy: longest first). -/
def d34 : RE := reCat [dgt, dgt, dgt, reOpt dgt]

/-- Models `[A-Z]` under `re.IGNORECASE`. -/
def letterCls (c : Char) : Bool := decide (65 ≤ (upc c).toNat) && decide ((upc c).toNat ≤ 90)

/-- Models `[A-Z]?` under `re.IGNORECASE`. -/
def letterOpt : RE := reOpt (RE.cls letterCls)

/-- Models `[A-Z0-9]` under `re.IGNORECASE`. -/
def alnumCls (c : Char) : Bool := letterCls c || c.isDigit

/-- Models `\w` (ASCII). -/
def wordChar (c : Char) : Bool := letterCls c || c.isDigit || c == '_'

/-- The prefix of `s` that was consumed to leave remainder `r`. -/
def takeDiff (s r : List Char) : List Char := s.take (s.length - r.length)

/-- Trivial context check. -/
def noCtx : List Char → Bool := fun _ => true

/-- A `finditer`-style pattern: a lookbehind check on the reversed text
before the position, a core pattern, and a lookahead check on the remainder. -/
structure Pat where
  lookB : List Char → Bool
  core : RE
  lookA : List Char → Bool

/-- Try to match a pattern at the current position; returns the consumed
match and the remainder. -/
def tryPat (p : Pat) (prev s : List Char) : Option (List Char × List Char) :=
  if p.lookB prev then
    match ((reMatch p.core s).filter p.lookA).head? with
    | some r => some (takeDiff s r, r)
    | none => none
  else none

/-- Python `re.finditer`: scan left to right, emitting non-overlapping
matches and resuming after each; an empty match advances one position.
The fuel argument only forces structural termination and is always
supplied large enough to be irrelevant. -/
def findIterFuel (p : Pat) : Nat → List Char → List Char → List (List Char)
  | 0, _, _ => []
  | fuel + 1, prev, s =>
    match tryPat p prev s with
    | some (m, rest) =>
      if m.isEmpty then
        match s with
        | [] => [m]
        | c :: s2 => m :: findIterFuel p fuel (c :: prev) s2
      else m :: findIterFuel p fuel (m.reverse ++ prev) rest
    | none =>
      match s with
      | [] => []
      | c :: s2 => findIterFuel p fuel (c :: prev) s2

/-- All matches of a pattern in a line (Python `re.finditer`). -/
def findPat (p : Pat) (s : List Char) : List (List Char) :=
  findIterFuel p (s.length + 1) [] s

/-- Is there a match of the pattern anywhere in the input
(Python `re.search` used as a boolean)? -/
def searchREAux (r : RE) : List Char → Bool
  | [] => !(reMatch r []).isEmpty
  | c :: s => !(reMatch r (c :: s)).isEmpty || searchREAux r s

/-- Boolean `re.search` on a `String`. -/
def searchRE (r : RE) (s : List Char) : Bool := searchREAux r s

/-- A `re.search`-with-one-group pattern: optional start anchor, lookbehind
check, pattern before the group, the group pattern, a consumed pattern after
the group, and a final lookahead/end check. -/
structure GPat where
  atStart : Bool
  lookB : List Char → Bool
  pre : RE
  grp : RE
  suf : RE
  lookA : List Char → Bool

/-- Try to match a group pattern at the current position; returns the text
captured by the group. -/
def tryGP (p : GPat) (prev s : List Char) : Option (List Char) :=
  if (!p.atStart || prev.isEmpty) && p.lookB prev then
    ((reMatch p.pre s).flatMap fun s1 =>
      (reMatch p.grp s1).flatMap fun s2 =>
        ((reMatch p.suf s2).filter p.lookA).map fun _ => takeDiff s1 s2).head?
  else none

/-- Scan left to right for the first position where the whole pattern
matches; return the group captured there (Python `re.search` + `group(1)`). -/
def searchGPAux (p : GPat) : List Char → List Char → Option (List Char)
  | prev, [] => tryGP p prev []
  | prev, c :: s =>
    match tryGP p prev (c :: s) with
    | some g => some g
    | none => searchGPAux p (c :: prev) s

/-- Python `re.search` returning the first capture group. -/
def searchG (p : GPat) (s : List Char) : Option (List Char) := searchGPAux p [] s

/-- Lookbehind `(?<=\s)`. -/
def prevWs : List Char → Bool
  | [] => false
  | c :: _ => isWS c

/-- Lookbehind `(?<=[A-Z])` under `re.IGNORECASE`. -/
def prevLetter : List Char → Bool
  | [] => false
  | c :: _ => letterCls c

/-- Lookahead described by a pattern: some match of `r` exists here. -/
def aheadRE (r : RE) : List Char → Bool := fun rest => !(reMatch r rest).isEmpty

/-- End-of-string check for `$` (also matching just before a final newline,
as Python's `$` does). -/
def atEnd : List Char → Bool
  | [] => true
  | c :: rest => c == '\n' && rest.isEmpty

/-- Word-boundary check for `\b` (the adjacent character, if any, is not a
word character). -/
def noWordCh : List Char → Bool
  | [] => true
  | c :: _ => !wordChar c

/-- Case-insensitive character test. -/
def eqCI (a : Char) : Char → Bool := fun x => upc x == upc a

/-- Exact character test. -/
def eqC (a : Char) : Char → Bool := fun x => x == a

/-- Does the reversed prefix before the position start with the given
sequence of character tests (used for fixed-width lookbehinds)? -/
def matchesRevList : List (Char → Bool) → List Char → Bool
  | [], _ => true
  | _ :: _, [] => false
  | p :: ps, c :: cs => p c && matchesRevList ps cs

/-! ### Rational helpers for price arithmetic -/

/-- The exact difference `a - b` computed with `mkRat` (so that it reduces
definitionally; Mathlib's `Rat.sub` is irreducible). -/
def qsub (a b : ℚ) : ℚ := mkRat (a.num * b.den - b.num * a.den) (a.den * b.den)

/-- Computable strict comparison on `ℚ` (definitionally `<`). -/
def qltB (a b : ℚ) : Bool := Rat.blt a b

/-- The literal `0.01` used as price tolerance by both scripts. -/
def cent : ℚ := mkRat 1 100

/-- Models `abs(a - b) > 0.01`, the price-mismatch test of `script.py`. -/
def absDiffGtCent (a b : ℚ) : Bool := qltB cent (qsub a b) || qltB cent (qsub b a)

/-- Models `abs(a - b) < 0.01`, the price-match test of `script2.py`. -/
def absDiffLtCent (a b : ℚ) : Bool := qltB (qsub a b) cent && qltB (qsub b a) cent

/-- Zero and the price upper bound, in reducible form. -/
def q0 : ℚ := mkRat 0 1

/-- The price upper bound `1000000`, in reducible form. -/
def q1M : ℚ := mkRat 1000000 1

/-- Exact value of a decimal price literal: integer digits and an optional
two-digit fraction (Python `float` on the matched text, idealized to the
exact decimal value). Returns `none` when Python's `float` would raise
`ValueError` (no digits at all after comma removal). -/
def parsePrice (g : List Char) : Option ℚ :=
  let s := g.filter (fun c => c != ',')
  let ip := s.takeWhile (fun c => c != '.')
  let rest := s.drop ip.length
  match rest with
  | [] => if ip.isEmpty then none else some (mkRat (digitsToNat ip) 1)
  | _ :: fp =>
    if ip.isEmpty && fp.isEmpty then none
    else some (mkRat (digitsToNat ip * 10 ^ fp.length + digitsToNat fp) (10 ^ fp.length))

namespace Script1

/-! ### `DocumentProcessor.extract_codes_from_line` (src/script.py) -/

/-- The boilerplate skip patterns (matched case-insensitively). -/
def skipPatterns : List RE :=
  [lit "Generated on",
   reCat [lit "Page ", dPlus, lit " of"],
   lit "This is acknowledgement",
   lit "Made By",
   lit "TOTAL WEIGHT",
   lit "Unloading point"]

/-- Does the line hit one of the skip patterns? -/
def skipMatch (l : List Char) : Bool := skipPatterns.any (fun r => searchRE r l)

/-- Models `\b9[0-9]{6}\b` — seven-digit product codes. -/
def pProduct : Pat := ⟨noWordCh, reCat [chE '9', repN 6 dgt], noWordCh⟩

/-- Models `(?:DP|DPCV)\s*\d{4}\s*MM\s*#\d{2,4}\s*M-\d+[A-Z]?` -/
def pDpFull : Pat :=
  ⟨noCtx,
   reCat [RE.alt (lit "DP") (lit "DPCV"), wsStar, repN 4 dgt, wsStar, lit "MM",
          wsStar, chI '#', d24, wsStar, lit "M-", dPlus, letterOpt],
   noCtx⟩

/-- Models `DP\d{2}\.[A-Z0-9]+\.\d{2}\.[A-Z]{2}\.\d+[A-Z]?` -/
def pDpTech : Pat :=
  ⟨noCtx,
   reCat [lit "DP", repN 2 dgt, chE '.', RE.plusCls alnumCls, chE '.',
          repN 2 dgt, chE '.', repN 2 (RE.cls letterCls), chE '.', dPlus, letterOpt],
   noCtx⟩

/-- Models `CH-\d{4}(?:\s+MR)?` -/
def pChMr : Pat :=
  ⟨noCtx, reCat [lit "CH-", repN 4 dgt, reOpt (reCat [wsPlus, lit "MR"])], noCtx⟩

/-- Models `CH[LHS]?-\d{4}` -/
def pChLhs : Pat :=
  ⟨noCtx,
   reCat [lit "CH", reOpt (RE.cls (fun c => upc c == 'L' || upc c == 'H' || upc c == 'S')),
          chI '-', repN 4 dgt],
   noCtx⟩

/-- Models `(?:CHL|CHS)-\d{4}` -/
def pChls : Pat :=
  ⟨noCtx, reCat [RE.alt (lit "CHL") (lit "CHS"), chI '-', repN 4 dgt], noCtx⟩

/-- Models `(?<=Marc code:\s)\d+` — the lookbehind, checked on the reversed prefix. -/
def pMarc : Pat :=
  ⟨matchesRevList [isWS, eqCI ':', eqCI 'e', eqCI 'd', eqCI 'o', eqCI 'c',
                   eqC ' ', eqCI 'c', eqCI 'r', eqCI 'a', eqCI 'm'],
   dPlus, noCtx⟩

/-- Models `(?<=Item No\.\s)\d{3,4}(?=\s)` -/
def pItemNo : Pat :=
  ⟨matchesRevList [isWS, eqC '.', eqCI 'o', eqCI 'n', eqC ' ',
                   eqCI 'm', eqCI 'e', eqCI 't', eqCI 'i'],
   d34, prevWs⟩

/-- The ordered pattern list of `extract_codes_from_line`. -/
def codePatterns : List Pat :=
  [pProduct, pDpFull, pDpTech, pChMr, pChLhs, pChls, pMarc, pItemNo]

/-- Models `re.search(r'Marc code:\s*(\d+)', clean_line)` (case-sensitive). -/
def marcSearch (l : List Char) : Option (List Char) :=
  searchG ⟨false, noCtx, reCat [litE "Marc code:", wsStar], dPlus, RE.eps, noCtx⟩ l

/-- The derived identifier `"DP <n> MM"` synthesized from a `CH-` code whose
embedded four-digit number is `n`. -/
def dpStr (n : List Char) : String := String.mk ('D' :: 'P' :: ' ' :: (n ++ [' ', 'M', 'M']))

/-- The derived identifier `"DPCV <n> MM"` synthesized from a `CH-` code
whose embedded four-digit number is `n`. -/
def dpcvStr (n : List Char) : String :=
  String.mk ('D' :: 'P' :: 'C' :: 'V' :: ' ' :: (n ++ [' ', 'M', 'M']))

/-- The cleaned form of a regex match:
`re.sub(r'\s+', ' ', code).upper()` applied to the stripped match. -/
def cleanCode (m : List Char) : String := String.mk ((collapseWs (pyStrip m)).map upc)

/-- The `CH-` derivation step of `extract_codes_from_line`: when the cleaned
code contains `'CH-'` and an embedded four-digit number, also add the
`DP`/`DPCV` templates instantiated with that number. -/
def addDerived (code : String) (acc : List String) : List String :=
  if hasSubChars code.toList ['C', 'H', '-'] then
    match firstFourDigits code.toList with
    | some n => insertS (dpcvStr n) (insertS (dpStr n) acc)
    | none => acc
  else acc

/-- The Marc-code step of `extract_codes_from_line`: whenever the clean line
carries a `Marc code:` label, add the labelled number. -/
def addMarc (cl : List Char) (acc : List String) : List String :=
  match marcSearch cl with
  | some g => insertS (String.mk g) acc
  | none => acc

/-- Process one regex match: strip it, collapse+uppercase it, add it, derive
`DP`/`DPCV` forms from `CH-` codes, and add the Marc code of the line. -/
def addCode (cl : List Char) (acc : List String) (m : List Char) : List String :=
  if (pyStrip m).isEmpty then acc
  else addMarc cl (addDerived (cleanCode m) (insertS (cleanCode m) acc))

/-- Models `DocumentProcessor.extract_codes_from_line`. -/
def extract_codes_from_line (line : String) : List String :=
  if skipMatch line.toList then []
  else
    let cl := cleanLine line.toList
    let ms := codePatterns.flatMap (fun p => findPat p cl)
    ms.foldl (addCode cl) []

end Script1

namespace Script1

/-! ### `DocumentProcessor.extract_quantity_and_price` (src/script.py) -/

/-- Models `QTY\s*[:=]?\s*(\d+)` -/
def q1 : GPat :=
  ⟨false, noCtx,
   reCat [lit "QTY", wsStar, reOpt (RE.cls (fun c => c == ':' || c == '=')), wsStar],
   dPlus, RE.eps, noCtx⟩

/-- Models `Quantity\s*[:=]?\s*(\d+)` -/
def q2 : GPat :=
  ⟨false, noCtx,
   reCat [lit "Quantity", wsStar, reOpt (RE.cls (fun c => c == ':' || c == '=')), wsStar],
   dPlus, RE.eps, noCtx⟩

/-- Models `\s(\d+)\s*(?:NOS|PCS|PIECES|EA|NR)` -/
def q3 : GPat :=
  ⟨false, noCtx, RE.cls isWS, dPlus,
   reCat [wsStar, RE.alt (lit "NOS") (RE.alt (lit "PCS") (RE.alt (lit "PIECES") (RE.alt (lit "EA") (lit "NR"))))],
   noCtx⟩

/-- Models `^\s*(\d+)\s*$` -/
def q4 : GPat := ⟨true, noCtx, wsStar, dPlus, wsStar, atEnd⟩

/-- Models `Quantity\s+(\d+)\s+UM` -/
def q5 : GPat :=
  ⟨false, noCtx, reCat [lit "Quantity", wsPlus], dPlus, reCat [wsPlus, lit "UM"], noCtx⟩

/-- Models `(?<=\s)(\d+)(?=\s+(?:NR|EA))` -/
def q6 : GPat :=
  ⟨false, prevWs, RE.eps, dPlus, RE.eps,
   aheadRE (reCat [wsPlus, RE.alt (lit "NR") (lit "EA")])⟩

/-- Models `(?<=\s)(\d+)(?=\s+(?:USD|USD\s+))` -/
def q7 : GPat :=
  ⟨false, prevWs, RE.eps, dPlus, RE.eps,
   aheadRE (reCat [wsPlus, RE.alt (lit "USD") (reCat [lit "USD", wsPlus])])⟩

/-- The ordered quantity pattern list. -/
def qtyPatterns : List GPat := [q1, q2, q3, q4, q5, q6, q7]

/-- Models `[\d,]+(?:\.\d{2})?` — the price capture group. -/
def grpPrice : RE :=
  reCat [RE.plusCls (fun c => c.isDigit || c == ','), reOpt (reCat [chE '.', repN 2 dgt])]

/-- Models `[\d,]+\.\d{2}` — the price capture group requiring decimals. -/
def grpPriceD : RE :=
  reCat [RE.plusCls (fun c => c.isDigit || c == ','), chE '.', repN 2 dgt]

/-- Models `USD\s*([\d,]+(?:\.\d{2})?)` -/
def r1 : GPat := ⟨false, noCtx, reCat [lit "USD", wsStar], grpPrice, RE.eps, noCtx⟩

/-- Models `\$\s*([\d,]+(?:\.\d{2})?)` -/
def r2 : GPat := ⟨false, noCtx, reCat [chE '$', wsStar], grpPrice, RE.eps, noCtx⟩

/-- Models `(?:Price|PRICE)[:\s]*([\d,]+(?:\.\d{2})?)` -/
def r3 : GPat :=
  ⟨false, noCtx,
   reCat [RE.alt (lit "Price") (lit "PRICE"), RE.starCls (fun c => c == ':' || isWS c)],
   grpPrice, RE.eps, noCtx⟩

/-- Models `(?:Unit Price|UNIT PRICE)[:\s]*([\d,]+(?:\.\d{2})?)` -/
def r4 : GPat :=
  ⟨false, noCtx,
   reCat [RE.alt (lit "Unit Price") (lit "UNIT PRICE"), RE.starCls (fun c => c == ':' || isWS c)],
   grpPrice, RE.eps, noCtx⟩

/-- Models `(?<=\s)([\d,]+\.\d{2})(?=\s+USD)` -/
def r5 : GPat :=
  ⟨false, prevWs, RE.eps, grpPriceD, RE.eps, aheadRE (reCat [wsPlus, lit "USD"])⟩

/-- Models `Amount\s+USD\s+([\d,]+\.\d{2})` -/
def r6 : GPat :=
  ⟨false, noCtx, reCat [lit "Amount", wsPlus, lit "USD", wsPlus], grpPriceD, RE.eps, noCtx⟩

/-- Models `(?<=[A-Z])\s+([\d,]+\.\d{2})\s*$` -/
def r7 : GPat := ⟨false, prevLetter, wsPlus, grpPriceD, wsStar, atEnd⟩

/-- The ordered price pattern list. -/
def pricePatterns : List GPat := [r1, r2, r3, r4, r5, r6, r7]

/-- The quantity loop: first pattern whose (first) match parses to an
integer strictly between 0 and 10000 wins and stops the loop; otherwise the
default `"1"` survives. -/
def qtyLoop : List GPat → List Char → String
  | [], _ => "1"
  | p :: rest, l =>
    match searchG p l with
    | some g =>
      let n := digitsToNat g
      if 0 < n && n < 10000 then natToStr n else qtyLoop rest l
    | none => qtyLoop rest l

/-- The price loop of `script.py`: the price is only assigned when the
parsed value is strictly between 0 and 1000000, and the loop then stops. -/
def priceLoop : List GPat → List Char → ℚ → ℚ
  | [], _, cur => cur
  | p :: rest, l, cur =>
    match searchG p l with
    | some g =>
      match parsePrice g with
      | some v => if qltB q0 v && qltB v q1M then v else priceLoop rest l cur
      | none => priceLoop rest l cur
    | none => priceLoop rest l cur

/-- Models `DocumentProcessor.extract_quantity_and_price`. -/
def extract_quantity_and_price (line : String) : String × ℚ :=
  (qtyLoop qtyPatterns line.toList, priceLoop pricePatterns line.toList q0)

/-! ### `DocumentProcessor.process_line` (src/script.py) -/

/-- Models `re.search(r'\(([^)]+)\)', line)` — first parenthesized segment. -/
def parenGroup (l : List Char) : Option (List Char) :=
  searchG ⟨false, noCtx, chE '(', RE.plusCls (fun c => c != ')'), chE ')', noCtx⟩ l

/-- The material specification extracted by `process_line` in `script.py`:
the stripped first parenthesized segment, with no plausibility check. -/
def parenSpec (l : List Char) : String :=
  match parenGroup l with
  | some g => String.mk (pyStrip g)
  | none => ""

/-- Models `re.search(r'^\s*(\d+)', line)` — the leading line number, or `""`. -/
def lineNumber (l : List Char) : String :=
  match searchG ⟨true, noCtx, wsStar, dPlus, RE.eps, noCtx⟩ l with
  | some g => String.mk g
  | none => ""

/-- The `ValveItem` record of `src/script.py` (the unused `delivery_date`
field, always `""`, is omitted). -/
structure ValveItem where
  line_number : String
  item_codes : List String
  description : String
  quantity : String
  material_spec : String
  source_doc : String
  original_line : String
  price : ℚ
deriving DecidableEq

/-- Models `DocumentProcessor.process_line`: `none` for blank lines and lines
yielding no codes; otherwise the assembled item. -/
def process_line (line : String) (doc_type : String) : Option ValveItem :=
  if (pyStrip line.toList).isEmpty then none
  else
    let codes := extract_codes_from_line line
    if codes.isEmpty then none
    else
      let qp := extract_quantity_and_price line
      let material_spec := parenSpec line.toList
      some ⟨lineNumber line.toList, codes, String.mk (pyStrip line.toList),
            qp.1, material_spec, doc_type, line, qp.2⟩

end Script1

namespace Script1

/-! ### `DocumentProcessor.load_erp_codes` and `items_match` (src/script.py) -/

/-- The alias table `code_mappings : defaultdict(set)`, modelled as a total
function into lists (the default empty set is the constant `[]`). -/
def CodeMap : Type := String → List String

/-- The empty alias table. -/
def emptyMap : CodeMap := fun _ => []

/-- Models `code_mappings[k].add(v)`. -/
def addMap (m : CodeMap) (k v : String) : CodeMap :=
  fun x => if x = k then insertS v (m x) else m x

/-- Python `str.lower` on a `String`. -/
def lowerS (s : String) : String := String.mk (s.toList.map loc)

/-- Processing of one catalog row by `load_erp_codes`: strip both fields,
skip the row when either is empty or `nan` (case-insensitively), otherwise
insert the bidirectional pair and the normalized cross-links. -/
def loadRow (m : CodeMap) (row : String × String) : CodeMap :=
  let acode := pyStripS row.1
  let cpartno := pyStripS row.2
  if acode = "" || cpartno = "" || lowerS acode = "nan" || lowerS cpartno = "nan" then m
  else
    let m1 := addMap m acode cpartno
    let m2 := addMap m1 cpartno acode
    let na := normalize_code acode
    let nc := normalize_code cpartno
    let m3 := if na ≠ acode then addMap m2 na cpartno else m2
    let m4 := if nc ≠ cpartno then addMap m3 nc acode else m3
    m4

/-- Models `DocumentProcessor.load_erp_codes` over the catalog rows
(`acode`, `cpartno` pairs). -/
def load_erp_codes (rows : List (String × String)) : CodeMap :=
  rows.foldl loadRow emptyMap

/-- The first four-digit fragment of a code (numeric matching tier). -/
def firstFour (s : String) : Option String := (firstFourDigits s.toList).map String.mk

/-- The four-digit fragments of a code set. -/
def codeNums (codes : List String) : List String := codes.filterMap firstFour

/-- Direct tier: non-empty intersection of the code sets. -/
def directB (po so : ValveItem) : Bool :=
  po.item_codes.any (fun c => so.item_codes.contains c)

/-- Numeric tier: shared four-digit fragment. -/
def numericB (po so : ValveItem) : Bool :=
  (codeNums po.item_codes).any (fun n => (codeNums so.item_codes).contains n)

/-- Alias tier: some PO code (raw, or normalized when normalization changes
it) maps to a set meeting the SO codes. -/
def aliasB (cm : CodeMap) (po so : ValveItem) : Bool :=
  po.item_codes.any fun pc =>
    (cm pc).any (fun mc => so.item_codes.contains mc) ||
    (let np := normalize_code pc
     np != pc && (cm np).any (fun mc => so.item_codes.contains mc))

/-- Models `DocumentProcessor.items_match`, with its early-return structure. -/
def items_match (cm : CodeMap) (po so : ValveItem) : Bool :=
  if directB po so then true
  else if numericB po so then true
  else if aliasB cm po so then true
  else false

/-! ### `DocumentProcessor.analyze_and_report` (src/script.py) — the
analysis counters and discrepancy lists (report formatting is rendering). -/

/-- The aggregate analysis state: counters and discrepancy records.
Records are kept as structured tuples rather than formatted strings. -/
structure Analysis where
  total_po_items : Nat
  matched_items : Nat
  mismatched_items : Nat
  quantity_mismatches : List (String × String × String)
  price_mismatches : List (String × ℚ × ℚ)
  material_spec_mismatches : List (String × String × String)
  unmatched_items : List (String × String)
deriving DecidableEq

/-- The empty analysis state. -/
def analysisInit : Analysis := ⟨0, 0, 0, [], [], [], []⟩

/-- One iteration of the PO loop of `analyze_and_report`: count the item,
scan the SO items for the first match (the `for`/`break`), and record
discrepancies against that first match, or record the item as unmatched. -/
def stepPo (cm : CodeMap) (sos : List ValveItem) (a : Analysis) (po : ValveItem) : Analysis :=
  match sos.find? (fun so => items_match cm po so) with
  | some so =>
    let code := po.item_codes.headD ""
    ⟨a.total_po_items + 1, a.matched_items + 1, a.mismatched_items,
     (if po.quantity ≠ so.quantity then
        a.quantity_mismatches ++ [(code, po.quantity, so.quantity)]
      else a.quantity_mismatches),
     (if absDiffGtCent po.price so.price then
        a.price_mismatches ++ [(code, po.price, so.price)]
      else a.price_mismatches),
     (if po.material_spec ≠ so.material_spec then
        a.material_spec_mismatches ++ [(code, po.material_spec, so.material_spec)]
      else a.material_spec_mismatches),
     a.unmatched_items⟩
  | none =>
    let code := if po.item_codes.isEmpty then "Unknown" else po.item_codes.headD ""
    let mat := if po.material_spec = "" then "No material spec" else po.material_spec
    ⟨a.total_po_items + 1, a.matched_items, a.mismatched_items + 1,
     a.quantity_mismatches, a.price_mismatches, a.material_spec_mismatches,
     a.unmatched_items ++ [(code, mat)]⟩

/-- The analysis pass of `analyze_and_report` over the accumulated items:
PO items are those with `source_doc = "PO"`, SO items those with
`source_doc = "SO"`. -/
def analyze_and_report (cm : CodeMap) (items : List ValveItem) : Analysis :=
  let po_items := items.filter (fun i => i.source_doc == "PO")
  let so_items := items.filter (fun i => i.source_doc == "SO")
  po_items.foldl (stepPo cm so_items) analysisInit

end Script1

namespace Script2

/-! ### `ValveProcessor` (src/script2.py) -/

/-- The `ValveItem` record of `src/script2.py` (the never-assigned
`item_number` field, always `""`, is omitted). -/
structure ValveItem where
  codes : List String
  marc_code : String
  material_spec : String
  quantity : String
  price : ℚ
  source_doc : String
  original_line : String
  doc_type : String
deriving DecidableEq

/-- The skip test of `ValveProcessor.extract_codes_from_line`:
`any(x in line.upper() for x in ['DOCUSIGN', 'PAGE', 'GENERATED'])`. -/
def skipMatch2 (l : List Char) : Bool :=
  let u := l.map upc
  hasSubChars u "DOCUSIGN".toList || hasSubChars u "PAGE".toList ||
    hasSubChars u "GENERATED".toList

/-- The ordered pattern list of `ValveProcessor.extract_codes_from_line`:
DPCV/DP full format, CH format, dotted technical format, product code. -/
def codePatterns2 : List Pat :=
  [Script1.pDpFull, Script1.pChMr, Script1.pDpTech, Script1.pProduct]

/-- Models `ValveProcessor.extract_codes_from_line`: same patterns as collected
above, each match added as `match.group(0).strip().upper()` — with no
`CH`-code derivation and no whitespace collapsing. -/
def extract_codes_from_line (line : String) : List String :=
  if skipMatch2 line.toList then []
  else
    let ms := codePatterns2.flatMap (fun p => findPat p line.toList)
    ms.foldl (fun acc m => insertS (String.mk ((pyStrip m).map upc)) acc) []

/-- The ordered quantity pattern list of `script2.py` (the first four
patterns of `script.py`). -/
def qtyPatterns2 : List GPat := [Script1.q1, Script1.q2, Script1.q3, Script1.q4]

/-- The ordered price pattern list of `script2.py` (the first three
patterns of `script.py`). -/
def pricePatterns2 : List GPat := [Script1.r1, Script1.r2, Script1.r3]

/-- The price loop of `script2.py`: the parsed value is assigned *before*
the range check, so an out-of-range value is retained while later patterns
are tried. -/
def priceLoop2 : List GPat → List Char → ℚ → ℚ
  | [], _, cur => cur
  | p :: rest, l, cur =>
    match searchG p l with
    | some g =>
      match parsePrice g with
      | some v => if qltB q0 v && qltB v q1M then v else priceLoop2 rest l v
      | none => priceLoop2 rest l cur
    | none => priceLoop2 rest l cur

/-- Models `ValveProcessor.extract_quantity_and_price`. -/
def extract_quantity_and_price (line : String) : String × ℚ :=
  (Script1.qtyLoop qtyPatterns2 line.toList, priceLoop2 pricePatterns2 line.toList q0)

/-- The material-keyword plausibility check of
`ValveProcessor.extract_material_spec`. -/
def matKeyword (spec : List Char) : Bool :=
  let u := spec.map upc
  ["ASTM", "GR.", "WCB", "LCC", "CF8M"].any (fun k => hasSubChars u k.toList)

/-- Models `ValveProcessor.extract_material_spec`: the stripped first parenthesized
segment if it passes the keyword check, else `""`. -/
def extract_material_spec (line : String) : String :=
  match Script1.parenGroup line.toList with
  | some g =>
    let spec := pyStrip g
    if matKeyword spec then String.mk spec else ""
  | none => ""

/-- Models `re.search(r'Marc code:\s*(\d+)', line)` in `process_line`. -/
def marcCode2 (l : List Char) : String :=
  match Script1.marcSearch l with
  | some g => String.mk g
  | none => ""

/-- Models `ValveProcessor.process_line`. -/
def process_line (line : String) (doc_type : String) : Option ValveItem :=
  if (pyStrip line.toList).isEmpty then none
  else
    let codes := extract_codes_from_line line
    if codes.isEmpty then none
    else
      let qp := extract_quantity_and_price line
      let material_spec := extract_material_spec line
      some ⟨codes, marcCode2 line.toList, material_spec, qp.1, qp.2, doc_type, line, doc_type⟩

/-- Direct tier of `match_items`: non-empty code intersection. -/
def directB2 (po so : ValveItem) : Bool :=
  po.codes.any (fun c => so.codes.contains c)

/-- Fuzzy tier of `match_items`: some PO code containing `MR` equals some SO
code once every `" MR"` occurrence is removed. -/
def fuzzyB2 (po so : ValveItem) : Bool :=
  po.codes.any fun pc =>
    so.codes.any fun sc =>
      hasSubChars pc.toList ['M', 'R'] &&
        String.mk (replaceAll [' ', 'M', 'R'] [] pc.toList) == sc

/-- Models `ValveProcessor.match_items`: scan the SO items in order; on the first
direct hit return it with score 100, on the first fuzzy hit return it with
score 95; otherwise `(none, 0)`. -/
def match_items (po : ValveItem) : List ValveItem → Option ValveItem × Nat
  | [] => (none, 0)
  | so :: rest =>
    if directB2 po so then (some so, 100)
    else if fuzzyB2 po so then (some so, 95)
    else match_items po rest

/-- The per-item rows of `ValveProcessor.analyze_matches` (the dataframe is
a column-wise record; here one row per PO item). -/
structure MatchRow where
  po_item : String
  so_match : String
  match_score : Nat
  quantity_match : Bool
  price_match : Bool
  material_match : Bool
deriving DecidableEq

/-- One iteration of the PO loop of `analyze_matches`. -/
def matchRowFor (sos : List ValveItem) (po : ValveItem) : MatchRow :=
  let ms := match_items po sos
  match ms.1 with
  | some so =>
    ⟨po.codes.headD "", so.codes.headD "", ms.2,
     po.quantity == so.quantity,
     absDiffLtCent po.price so.price,
     po.material_spec == so.material_spec⟩
  | none => ⟨po.codes.headD "", "No Match", ms.2, false, false, false⟩

/-- Models `ValveProcessor.analyze_matches` over the accumulated items. -/
def analyze_matches (items : List ValveItem) : List MatchRow :=
  let po_items := items.filter (fun i => i.doc_type == "PO")
  let so_items := items.filter (fun i => i.doc_type == "SO")
  po_items.map (matchRowFor so_items)

end Script2

/-- Specification-level view of one quantity pattern: the integer parsed
from the pattern's first match when it lies strictly between 0 and 10000. -/
def qtyCandidate (p : GPat) (l : List Char) : Option Nat :=
  (searchG p l).bind fun g =>
    let n := digitsToNat g
    if 0 < n && n < 10000 then some n else none

/-! ## Theorems -/

/-! ### Bridges between the computable rational comparisons and `<`/`≤` -/

theorem qltB_iff_lt (a b : ℚ) : qltB a b = true ↔ a < b := Iff.rfl

theorem qsub_eq (a b : ℚ) : qsub a b = a - b := by
  unfold qsub
  rw [Rat.mkRat_eq_div]
  push_cast
  have ha : ((a.den : ℚ)) ≠ 0 := by positivity
  have hb : ((b.den : ℚ)) ≠ 0 := by positivity
  have h2 := Rat.num_div_den a
  have h3 := Rat.num_div_den b
  rw [div_eq_iff ha] at h2
  rw [div_eq_iff hb] at h3
  field_simp
  linear_combination (b.den : ℚ) * h2 - (a.den : ℚ) * h3

theorem cent_eq : cent = 1 / 100 := by
  unfold cent
  rw [Rat.mkRat_eq_div]
  norm_num

theorem absDiffGtCent_iff (a b : ℚ) : absDiffGtCent a b = true ↔ |a - b| > 1 / 100 := by
  unfold absDiffGtCent
  rw [Bool.or_eq_true, qltB_iff_lt, qltB_iff_lt, qsub_eq, qsub_eq, cent_eq]
  rw [gt_iff_lt, lt_abs]
  constructor
  · rintro (h | h)
    · exact Or.inl h
    · exact Or.inr (by linarith)
  · rintro (h | h)
    · exact Or.inl h
    · exact Or.inr (by linarith)

theorem absDiffGtCent_false_iff (a b : ℚ) :
    absDiffGtCent a b = false ↔ |a - b| ≤ 1 / 100 := by
  rw [← Bool.not_eq_true, not_iff_comm, absDiffGtCent_iff]
  push_neg
  exact Iff.rfl

theorem absDiffLtCent_iff (a b : ℚ) : absDiffLtCent a b = true ↔ |a - b| < 1 / 100 := by
  unfold absDiffLtCent
  rw [Bool.and_eq_true, qltB_iff_lt, qltB_iff_lt, qsub_eq, qsub_eq, cent_eq, abs_lt]
  constructor
  · rintro ⟨h1, h2⟩
    exact ⟨by linarith, h1⟩
  · rintro ⟨h1, h2⟩
    exact ⟨h2, by linarith⟩

/-! ### C10 — the analyzer counts every PO item exactly once -/

theorem stepPo_total (cm : Script1.CodeMap) (sos : List Script1.ValveItem)
    (a : Script1.Analysis) (po : Script1.ValveItem) :
    (Script1.stepPo cm sos a po).total_po_items = a.total_po_items + 1 := by
  unfold Script1.stepPo
  cases sos.find? (fun so => Script1.items_match cm po so) <;> rfl

theorem stepPo_matched_mismatched (cm : Script1.CodeMap) (sos : List Script1.ValveItem)
    (a : Script1.Analysis) (po : Script1.ValveItem) :
    (Script1.stepPo cm sos a po).matched_items + (Script1.stepPo cm sos a po).mismatched_items
      = a.matched_items + a.mismatched_items + 1 := by
  unfold Script1.stepPo
  cases sos.find? (fun so => Script1.items_match cm po so) <;> simp <;> omega

theorem foldPo_counts (cm : Script1.CodeMap) (sos : List Script1.ValveItem)
    (pos : List Script1.ValveItem) :
    ∀ a : Script1.Analysis,
      (pos.foldl (Script1.stepPo cm sos) a).total_po_items = a.total_po_items + pos.length ∧
      (pos.foldl (Script1.stepPo cm sos) a).matched_items
          + (pos.foldl (Script1.stepPo cm sos) a).mismatched_items
        = a.matched_items + a.mismatched_items + pos.length := by
  induction pos with
  | nil => intro a; simp
  | cons po rest ih =>
    intro a
    have h1 := stepPo_total cm sos a po
    have h2 := stepPo_matched_mismatched cm sos a po
    have h3 := ih (Script1.stepPo cm sos a po)
    simp only [List.foldl_cons, List.length_cons]
    constructor
    · rw [h3.1, h1]; omega
    · rw [h3.2, h2]; omega

/-- C10: for every alias table and every accumulated item collection, the
summary counts of `analyze_and_report` satisfy
`matched_items + mismatched_items = total_po_items`, and `total_po_items` is
the number of accumulated items classified as `"PO"` — each PO item is
counted exactly once, as matched or as unmatched, never both. -/
theorem c10_counts (cm : Script1.CodeMap) (items : List Script1.ValveItem) :
    (Script1.analyze_and_report cm items).matched_items
        + (Script1.analyze_and_report cm items).mismatched_items
      = (Script1.analyze_and_report cm items).total_po_items ∧
    (Script1.analyze_and_report cm items).total_po_items
      = (items.filter (fun i => i.source_doc == "PO")).length := by
  unfold Script1.analyze_and_report
  dsimp only
  have h := foldPo_counts cm (items.filter (fun i => i.source_doc == "SO"))
    (items.filter (fun i => i.source_doc == "PO")) Script1.analysisInit
  simp only [Script1.analysisInit] at h ⊢
  refine ⟨?_, ?_⟩ <;> omega

/-! ### C9 — retained line items always carry a non-empty identifier set -/

/-- C9: each line parser returns either nothing or an item whose identifier
set is non-empty — a line from which the extractor derives no identifiers is
discarded — so the first element of a retained item's identifier set (the
analyzers' `next(iter(...))`) always exists. -/
theorem c9_nonempty_codes :
    (∀ (line doc_type : String) (it : Script1.ValveItem),
        Script1.process_line line doc_type = some it →
          it.item_codes ≠ [] ∧ it.item_codes.head?.isSome = true) ∧
    (∀ (line doc_type : String) (it : Script2.ValveItem),
        Script2.process_line line doc_type = some it →
          it.codes ≠ [] ∧ it.codes.head?.isSome = true) := by
  constructor
  · intro line doc_type it h
    unfold Script1.process_line at h
    simp at h
    obtain ⟨h1, h2, h3⟩ := h
    subst h3
    cases h4 : Script1.extract_codes_from_line line with
    | nil => exact absurd h4 h2
    | cons c rest => simp [h4]
  · intro line doc_type it h
    unfold Script2.process_line at h
    simp at h
    obtain ⟨h1, h2, h3⟩ := h
    subst h3
    cases h4 : Script2.extract_codes_from_line line with
    | nil => exact absurd h4 h2
    | cons c rest => simp [h4]

/-- Witness for C9 at a concrete parsed line. -/
theorem c9_nonempty_codes_witness :
    ∃ it : Script1.ValveItem,
      Script1.process_line "CH-1234" "PO" = some it ∧
        it.item_codes ≠ [] ∧ it.item_codes.head?.isSome = true := by
  refine ⟨⟨"", ["CH-1234", "DP 1234 MM", "DPCV 1234 MM"], "CH-1234", "1", "", "PO",
           "CH-1234", q0⟩, ?_, ?_⟩
  · decide
  · exact (c9_nonempty_codes.1 "CH-1234" "PO" _ (by decide))

/-! ### C6 — alias table symmetry -/

theorem insertS_mem_of_mem {y : String} (x : String) {l : List String} (h : y ∈ l) :
    y ∈ insertS x l := by
  unfold insertS
  split
  · exact h
  · exact List.mem_append_left _ h

theorem insertS_mem_self (x : String) (l : List String) : x ∈ insertS x l := by
  unfold insertS
  split
  · rename_i h
    simpa using h
  · simp

theorem addMap_mem_of_mem {v : String} (m : Script1.CodeMap) (k k2 v2 : String)
    (h : v ∈ m k) : v ∈ Script1.addMap m k2 v2 k := by
  unfold Script1.addMap
  split
  · rename_i he
    subst he
    exact insertS_mem_of_mem v2 h
  · exact h

theorem addMap_mem_self (m : Script1.CodeMap) (k v : String) :
    v ∈ Script1.addMap m k v k := by
  unfold Script1.addMap
  simp [insertS_mem_self]

theorem loadRow_mem_of_mem {v : String} (m : Script1.CodeMap) (row : String × String)
    (k : String) (h : v ∈ m k) : v ∈ Script1.loadRow m row k := by
  unfold Script1.loadRow
  split
  · exact h
  · dsimp only
    split <;> split <;>
      solve
      | exact addMap_mem_of_mem _ _ _ _ (addMap_mem_of_mem _ _ _ _
          (addMap_mem_of_mem _ _ _ _ (addMap_mem_of_mem _ _ _ _ h)))
      | exact addMap_mem_of_mem _ _ _ _
          (addMap_mem_of_mem _ _ _ _ (addMap_mem_of_mem _ _ _ _ h))
      | exact addMap_mem_of_mem _ _ _ _ (addMap_mem_of_mem _ _ _ _ h)

theorem foldRows_mem_of_mem {v : String} (rows : List (String × String)) :
    ∀ (m : Script1.CodeMap) (k : String), v ∈ m k →
      v ∈ rows.foldl Script1.loadRow m k := by
  induction rows with
  | nil => intro m k h; exact h
  | cons row rest ih =>
    intro m k h
    exact ih (Script1.loadRow m row) k (loadRow_mem_of_mem m row k h)

theorem loadRow_pair (m : Script1.CodeMap) (a c : String)
    (ha : pyStripS a ≠ "") (hc : pyStripS c ≠ "")
    (hna : Script1.lowerS (pyStripS a) ≠ "nan") (hnc : Script1.lowerS (pyStripS c) ≠ "nan") :
    pyStripS c ∈ Script1.loadRow m (a, c) (pyStripS a) ∧
      pyStripS a ∈ Script1.loadRow m (a, c) (pyStripS c) := by
  unfold Script1.loadRow
  rw [if_neg (by simp [ha, hc, hna, hnc])]
  dsimp only
  constructor
  · have h1 : pyStripS c ∈ Script1.addMap m (pyStripS a) (pyStripS c) (pyStripS a) :=
      addMap_mem_self m _ _
    have h2 := addMap_mem_of_mem _ (pyStripS a) (pyStripS c) (pyStripS a) h1
    split <;> split <;>
      first
      | exact addMap_mem_of_mem _ _ _ _ (addMap_mem_of_mem _ _ _ _ h2)
      | exact addMap_mem_of_mem _ _ _ _ h2
      | exact h2
  · have h2 : pyStripS a ∈
        Script1.addMap (Script1.addMap m (pyStripS a) (pyStripS c)) (pyStripS c) (pyStripS a)
          (pyStripS c) := addMap_mem_self _ _ _
    split <;> split <;>
      first
      | exact addMap_mem_of_mem _ _ _ _ (addMap_mem_of_mem _ _ _ _ h2)
      | exact addMap_mem_of_mem _ _ _ _ h2
      | exact h2

theorem foldRows_pair (rows : List (String × String)) :
    ∀ (m : Script1.CodeMap) (a c : String), (a, c) ∈ rows →
      pyStripS a ≠ "" → pyStripS c ≠ "" →
      Script1.lowerS (pyStripS a) ≠ "nan" → Script1.lowerS (pyStripS c) ≠ "nan" →
      pyStripS c ∈ rows.foldl Script1.loadRow m (pyStripS a) ∧
        pyStripS a ∈ rows.foldl Script1.loadRow m (pyStripS c) := by
  induction rows with
  | nil => intro m a c h; cases h
  | cons row rest ih =>
    intro m a c hmem ha hc hna hnc
    rcases List.mem_cons.mp hmem with heq | hmem2
    · subst heq
      have h := loadRow_pair m a c ha hc hna hnc
      exact ⟨foldRows_mem_of_mem rest _ _ h.1, foldRows_mem_of_mem rest _ _ h.2⟩
    · exact ih (Script1.loadRow m row) a c hmem2 ha hc hna hnc

/-- C6: for every catalog row whose two (stripped) code fields are both
non-empty and not the `nan` null marker, the built alias table satisfies
`lookup A ∋ C` and `lookup C ∋ A`. -/
theorem c6_alias_symmetry (rows : List (String × String)) (a c : String)
    (hmem : (a, c) ∈ rows)
    (ha : pyStripS a ≠ "") (hc : pyStripS c ≠ "")
    (hna : Script1.lowerS (pyStripS a) ≠ "nan")
    (hnc : Script1.lowerS (pyStripS c) ≠ "nan") :
    pyStripS c ∈ Script1.load_erp_codes rows (pyStripS a) ∧
      pyStripS a ∈ Script1.load_erp_codes rows (pyStripS c) := by
  unfold Script1.load_erp_codes
  exact foldRows_pair rows Script1.emptyMap a c hmem ha hc hna hnc

/-- Witness for C6 at a concrete one-row catalog. -/
theorem c6_alias_symmetry_witness :
    "X100" ∈ Script1.load_erp_codes [("VLV-100", "X100")] "VLV-100" ∧
      "VLV-100" ∈ Script1.load_erp_codes [("VLV-100", "X100")] "X100" := by
  have h := c6_alias_symmetry [("VLV-100", "X100")] "VLV-100" "X100"
    (by decide) (by decide) (by decide) (by decide) (by decide)
  simpa using h

/-! ### C2 — CH-code derivation in the code extractor -/

theorem mem_insertS_iff (x y : String) (l : List String) :
    x ∈ insertS y l ↔ x ∈ l ∨ x = y := by
  unfold insertS
  split
  · rename_i h
    constructor
    · exact Or.inl
    · rintro (h2 | rfl)
      · exact h2
      · simpa using h
  · simp [or_comm]

theorem firstFourDigits_shape (l n : List Char) (h : firstFourDigits l = some n) :
    ∃ a b c d, n = [a, b, c, d] ∧ a.isDigit = true ∧ b.isDigit = true ∧
      c.isDigit = true ∧ d.isDigit = true := by
  induction l using firstFourDigits.induct with
  | case1 c1 c2 c3 c4 rest hd =>
    rw [firstFourDigits, if_pos hd] at h
    simp only [Bool.and_eq_true] at hd
    obtain ⟨⟨⟨h1, h2⟩, h3⟩, h4⟩ := hd
    obtain rfl : n = [c1, c2, c3, c4] := by simpa using h.symm
    exact ⟨c1, c2, c3, c4, rfl, h1, h2, h3, h4⟩
  | case2 c1 c2 c3 c4 rest hd ih =>
    rw [firstFourDigits, if_neg hd] at h
    exact ih h
  | case3 x hx =>
    rw [firstFourDigits] at h
    · cases h
    · exact hx

theorem firstFourDigits_dp (a b c d : Char) (h1 : a.isDigit = true)
    (h2 : b.isDigit = true) (h3 : c.isDigit = true) (h4 : d.isDigit = true) :
    firstFourDigits ('D' :: 'P' :: ' ' :: ([a, b, c, d] ++ [' ', 'M', 'M']))
      = some [a, b, c, d] := by
  simp +decide [firstFourDigits, h1, h2, h3, h4]

theorem firstFourDigits_dpcv (a b c d : Char) (h1 : a.isDigit = true)
    (h2 : b.isDigit = true) (h3 : c.isDigit = true) (h4 : d.isDigit = true) :
    firstFourDigits ('D' :: 'P' :: 'C' :: 'V' :: ' ' :: ([a, b, c, d] ++ [' ', 'M', 'M']))
      = some [a, b, c, d] := by
  simp +decide [firstFourDigits, h1, h2, h3, h4]

theorem starSuffixes_mem (p : Char → Bool) (s s2 : List Char)
    (h : s2 ∈ starSuffixes p s) :
    ∃ k, k ≤ s.length ∧ s2 = s.drop k ∧ ∀ c ∈ s.take k, p c = true := by
  induction s generalizing s2 with
  | nil =>
    simp [starSuffixes] at h
    exact ⟨0, by simp, by simp [h], by simp⟩
  | cons c rest ih =>
    rw [starSuffixes] at h
    by_cases hc : p c
    · rw [if_pos hc] at h
      rcases List.mem_append.mp h with h2 | h2
      · obtain ⟨k, hk, he, hall⟩ := ih s2 h2
        refine ⟨k + 1, by simp; omega, by simpa using he, ?_⟩
        intro x hx
        simp only [List.take_succ_cons, List.mem_cons] at hx
        rcases hx with rfl | hx
        · exact hc
        · exact hall x hx
      · simp at h2
        exact ⟨0, by simp, by simp [h2], by simp⟩
    · rw [if_neg hc] at h
      simp at h
      exact ⟨0, by simp, by simp [h], by simp⟩

theorem dPlus_digits (s1 s2 : List Char) (h : s2 ∈ reMatch dPlus s1) :
    ∀ c ∈ takeDiff s1 s2, c.isDigit = true := by
  unfold dPlus at h
  cases s1 with
  | nil => simp [reMatch] at h
  | cons c rest =>
    rw [reMatch] at h
    by_cases hc : c.isDigit
    · rw [if_pos hc] at h
      obtain ⟨k, hk, rfl, hall⟩ := starSuffixes_mem _ _ _ h
      intro x hx
      unfold takeDiff at hx
      rw [List.length_drop] at hx
      have hlen : (c :: rest).length - (rest.length - k) = k + 1 := by
        simp only [List.length_cons]
        omega
      rw [hlen, List.take_succ_cons, List.mem_cons] at hx
      rcases hx with rfl | hx
      · exact hc
      · exact hall x hx
    · rw [if_neg hc] at h
      simp at h

theorem tryGP_digits (p : GPat) (hg : p.grp = dPlus) (prev s g : List Char)
    (h : tryGP p prev s = some g) : ∀ c ∈ g, c.isDigit = true := by
  unfold tryGP at h
  split at h
  · have hmem := List.mem_of_mem_head? (Option.mem_def.mpr h)
    rw [List.mem_flatMap] at hmem
    obtain ⟨s1, _, hmem2⟩ := hmem
    rw [List.mem_flatMap] at hmem2
    obtain ⟨s2, hs2, hmem3⟩ := hmem2
    rw [List.mem_map] at hmem3
    obtain ⟨s3, _, heq⟩ := hmem3
    subst heq
    rw [hg] at hs2
    exact dPlus_digits s1 s2 hs2
  · cases h

theorem searchGPAux_digits (p : GPat) (hg : p.grp = dPlus) (s : List Char) :
    ∀ (prev g : List Char), searchGPAux p prev s = some g → ∀ c ∈ g, c.isDigit = true := by
  induction s with
  | nil =>
    intro prev g h
    rw [searchGPAux] at h
    exact tryGP_digits p hg prev [] g h
  | cons c rest ih =>
    intro prev g h
    rw [searchGPAux] at h
    cases htry : tryGP p prev (c :: rest) with
    | some g2 =>
      rw [htry] at h
      cases h
      exact tryGP_digits p hg prev (c :: rest) g htry
    | none =>
      rw [htry] at h
      exact ih (c :: prev) g h

theorem marcSearch_digits (l g : List Char) (h : Script1.marcSearch l = some g) :
    ∀ c ∈ g, c.isDigit = true := by
  unfold Script1.marcSearch searchG at h
  exact searchGPAux_digits _ rfl l [] g h

theorem digits_no_CH (l : List Char) (h : ∀ c ∈ l, c.isDigit = true) :
    hasSubChars l ['C', 'H', '-'] = false := by
  induction l with
  | nil => rfl
  | cons c rest ih =>
    rw [show hasSubChars (c :: rest) ['C', 'H', '-']
          = (hasPrefixChars ['C', 'H', '-'] (c :: rest) || hasSubChars rest ['C', 'H', '-'])
        from rfl,
        hasPrefixChars]
    have hc : c.isDigit = true := h c (List.mem_cons_self c rest)
    have hne : ('C' == c) = false := by
      cases hcc : ('C' == c)
      · rfl
      · rw [beq_iff_eq] at hcc
        rw [← hcc] at hc
        cases hc
    rw [hne]
    simp only [Bool.false_and, Bool.false_or]
    exact ih (fun x hx => h x (List.mem_cons_of_mem c hx))

theorem addDerived_mem_of_mem {x : String} (code : String) {acc : List String}
    (h : x ∈ acc) : x ∈ Script1.addDerived code acc := by
  unfold Script1.addDerived
  split
  · split
    · exact insertS_mem_of_mem _ (insertS_mem_of_mem _ h)
    · exact h
  · exact h

theorem addMarc_mem_of_mem {x : String} (cl : List Char) {acc : List String}
    (h : x ∈ acc) : x ∈ Script1.addMarc cl acc := by
  unfold Script1.addMarc
  split
  · exact insertS_mem_of_mem _ h
  · exact h

theorem addCode_mem_of_mem {x : String} (cl : List Char) {acc : List String}
    (m : List Char) (h : x ∈ acc) : x ∈ Script1.addCode cl acc m := by
  unfold Script1.addCode
  split
  · exact h
  · exact addMarc_mem_of_mem cl (addDerived_mem_of_mem _ (insertS_mem_of_mem _ h))

theorem foldl_addCode_mem_of_mem {x : String} (cl : List Char) (ms : List (List Char)) :
    ∀ {acc : List String}, x ∈ acc → x ∈ ms.foldl (Script1.addCode cl) acc := by
  induction ms with
  | nil => intro acc h; exact h
  | cons m rest ih => intro acc h; exact ih (addCode_mem_of_mem cl m h)

theorem dpStr_toList (n : List Char) :
    (Script1.dpStr n).toList = 'D' :: 'P' :: ' ' :: (n ++ [' ', 'M', 'M']) := rfl

theorem dpcvStr_toList (n : List Char) :
    (Script1.dpcvStr n).toList = 'D' :: 'P' :: 'C' :: 'V' :: ' ' :: (n ++ [' ', 'M', 'M']) := rfl

theorem firstFourDigits_dpStr (l n : List Char)
    (hsh : firstFourDigits l = some n) :
    firstFourDigits (Script1.dpStr n).toList = some n ∧
      firstFourDigits (Script1.dpcvStr n).toList = some n := by
  obtain ⟨a, b, c, d, rfl, h1, h2, h3, h4⟩ := firstFourDigits_shape l n hsh
  rw [dpStr_toList, dpcvStr_toList]
  exact ⟨firstFourDigits_dp a b c d h1 h2 h3 h4,
         firstFourDigits_dpcv a b c d h1 h2 h3 h4⟩

/-- The core invariant behind C2: adding one match (with its derivations and
the line's Marc code) preserves the property that every stored code
containing `'CH-'` with an embedded four-digit number comes with both of its
derived `DP`/`DPCV` identifiers. -/
theorem step_closed (cl : List Char) (acc : List String) (c1 : String)
    (hacc : ∀ code n, code ∈ acc → hasSubChars code.toList ['C', 'H', '-'] = true →
        firstFourDigits code.toList = some n →
        Script1.dpStr n ∈ acc ∧ Script1.dpcvStr n ∈ acc) :
    ∀ code n, code ∈ Script1.addMarc cl (Script1.addDerived c1 (insertS c1 acc)) →
        hasSubChars code.toList ['C', 'H', '-'] = true →
        firstFourDigits code.toList = some n →
        Script1.dpStr n ∈ Script1.addMarc cl (Script1.addDerived c1 (insertS c1 acc)) ∧
        Script1.dpcvStr n ∈ Script1.addMarc cl (Script1.addDerived c1 (insertS c1 acc)) := by
  intro code n hmem hsub hfd
  -- Lift a membership in the inner accumulator to the final one.
  have lift : ∀ x : String, x ∈ Script1.addDerived c1 (insertS c1 acc) →
      x ∈ Script1.addMarc cl (Script1.addDerived c1 (insertS c1 acc)) :=
    fun x hx => addMarc_mem_of_mem cl hx
  have liftAcc : ∀ x : String, x ∈ acc →
      x ∈ Script1.addMarc cl (Script1.addDerived c1 (insertS c1 acc)) :=
    fun x hx => lift x (addDerived_mem_of_mem c1 (insertS_mem_of_mem c1 hx))
  -- Decompose where `code` came from.
  have hmem2 : code ∈ Script1.addDerived c1 (insertS c1 acc) ∨
      (∃ g, Script1.marcSearch cl = some g ∧ code = String.mk g) := by
    unfold Script1.addMarc at hmem
    cases hm : Script1.marcSearch cl with
    | some g =>
      rw [hm] at hmem
      rcases (mem_insertS_iff _ _ _).mp hmem with h2 | h2
      · exact Or.inl h2
      · exact Or.inr ⟨g, rfl, h2⟩
    | none =>
      rw [hm] at hmem
      exact Or.inl hmem
  rcases hmem2 with hmem2 | ⟨g, hg, rfl⟩
  · -- Not the Marc code.
    by_cases hch : hasSubChars c1.toList ['C', 'H', '-'] = true
    · cases hffd : firstFourDigits c1.toList with
      | some n0 =>
        have hshape : Script1.addDerived c1 (insertS c1 acc)
            = insertS (Script1.dpcvStr n0) (insertS (Script1.dpStr n0) (insertS c1 acc)) := by
          unfold Script1.addDerived
          rw [if_pos hch, hffd]
        rw [hshape] at hmem2
        have hdp := firstFourDigits_dpStr c1.toList n0 hffd
        have hdpMem : Script1.dpStr n0 ∈ Script1.addDerived c1 (insertS c1 acc) := by
          rw [hshape]
          exact insertS_mem_of_mem _ (insertS_mem_self _ _)
        have hdpcvMem : Script1.dpcvStr n0 ∈ Script1.addDerived c1 (insertS c1 acc) := by
          rw [hshape]
          exact insertS_mem_self _ _
        rcases (mem_insertS_iff _ _ _).mp hmem2 with h3 | rfl
        · rcases (mem_insertS_iff _ _ _).mp h3 with h4 | rfl
          · rcases (mem_insertS_iff _ _ _).mp h4 with h5 | rfl
            · -- old element of `acc`
              have := hacc code n h5 hsub hfd
              exact ⟨liftAcc _ this.1, liftAcc _ this.2⟩
            · -- `code = c1`
              rw [hffd] at hfd
              cases hfd
              exact ⟨lift _ hdpMem, lift _ hdpcvMem⟩
          · -- `code = dpStr n0`
            rw [hdp.1] at hfd
            cases hfd
            exact ⟨lift _ hdpMem, lift _ hdpcvMem⟩
        · -- `code = dpcvStr n0`
          rw [hdp.2] at hfd
          cases hfd
          exact ⟨lift _ hdpMem, lift _ hdpcvMem⟩
      | none =>
        have hshape : Script1.addDerived c1 (insertS c1 acc) = insertS c1 acc := by
          unfold Script1.addDerived
          rw [if_pos hch, hffd]
        rw [hshape] at hmem2
        rcases (mem_insertS_iff _ _ _).mp hmem2 with h3 | rfl
        · have := hacc code n h3 hsub hfd
          exact ⟨liftAcc _ this.1, liftAcc _ this.2⟩
        · rw [hffd] at hfd
          cases hfd
    · have hshape : Script1.addDerived c1 (insertS c1 acc) = insertS c1 acc := by
        unfold Script1.addDerived
        rw [if_neg hch]
      rw [hshape] at hmem2
      rcases (mem_insertS_iff _ _ _).mp hmem2 with h3 | rfl
      · have := hacc code n h3 hsub hfd
        exact ⟨liftAcc _ this.1, liftAcc _ this.2⟩
      · exact absurd hsub hch
  · -- The Marc code is all digits, so it cannot contain `'CH-'`.
    have hdig := marcSearch_digits cl g hg
    have : hasSubChars (String.mk g).toList ['C', 'H', '-'] = false :=
      digits_no_CH g hdig
    rw [this] at hsub
    cases hsub

theorem addCode_closed (cl : List Char) (acc : List String) (m : List Char)
    (hacc : ∀ code n, code ∈ acc → hasSubChars code.toList ['C', 'H', '-'] = true →
        firstFourDigits code.toList = some n →
        Script1.dpStr n ∈ acc ∧ Script1.dpcvStr n ∈ acc) :
    ∀ code n, code ∈ Script1.addCode cl acc m →
        hasSubChars code.toList ['C', 'H', '-'] = true →
        firstFourDigits code.toList = some n →
        Script1.dpStr n ∈ Script1.addCode cl acc m ∧
        Script1.dpcvStr n ∈ Script1.addCode cl acc m := by
  intro code n hmem hsub hfd
  unfold Script1.addCode at hmem ⊢
  by_cases h0 : (pyStrip m).isEmpty = true
  · rw [if_pos h0] at hmem ⊢
    exact hacc code n hmem hsub hfd
  · rw [if_neg h0] at hmem ⊢
    exact step_closed cl acc (Script1.cleanCode m) hacc code n hmem hsub hfd

theorem foldl_addCode_closed (cl : List Char) (ms : List (List Char)) :
    ∀ acc : List String,
      (∀ code n, code ∈ acc → hasSubChars code.toList ['C', 'H', '-'] = true →
          firstFourDigits code.toList = some n →
          Script1.dpStr n ∈ acc ∧ Script1.dpcvStr n ∈ acc) →
      ∀ code n, code ∈ ms.foldl (Script1.addCode cl) acc →
          hasSubChars code.toList ['C', 'H', '-'] = true →
          firstFourDigits code.toList = some n →
          Script1.dpStr n ∈ ms.foldl (Script1.addCode cl) acc ∧
          Script1.dpcvStr n ∈ ms.foldl (Script1.addCode cl) acc := by
  induction ms with
  | nil => intro acc hacc; exact hacc
  | cons m rest ih =>
    intro acc hacc
    exact ih (Script1.addCode cl acc m) (addCode_closed cl acc m hacc)

/-- C2 counterexample: `script2.py`'s code extractor performs no CH-code
derivation.  Extracting the line `"CH-1234"` with it yields a set containing
the CH code (whose embedded four-digit number is 1234), but not the derived
identifier `"DP 1234 MM"` — refuting the claim as stated for that extractor. -/
theorem c2_counterexample :
    "CH-1234" ∈ Script2.extract_codes_from_line "CH-1234" ∧
      strContains "CH-1234" "CH-" = true ∧
      firstFourDigits "CH-1234".toList = some ['1', '2', '3', '4'] ∧
      "DP 1234 MM" ∉ Script2.extract_codes_from_line "CH-1234" := by
  refine ⟨by decide, by decide, by decide, by decide⟩

/-- C2 (amended): for `script.py`'s extractor the claim holds — every
extracted code containing `'CH-'` with an embedded four-digit number `n`
comes with the derived identifiers `"DP n MM"` and `"DPCV n MM"` in the
result set, and extracting `"CH-1234"` yields a set containing `CH-1234`,
`DP 1234 MM` and `DPCV 1234 MM`.  `script2.py`'s extractor performs no
derivation: it returns only the directly matched codes, and extracting
`"CH-1234"` yields exactly `{CH-1234}`. -/
theorem c2_amended :
    (∀ (line code : String) (n : List Char),
        code ∈ Script1.extract_codes_from_line line →
        strContains code "CH-" = true →
        firstFourDigits code.toList = some n →
          Script1.dpStr n ∈ Script1.extract_codes_from_line line ∧
          Script1.dpcvStr n ∈ Script1.extract_codes_from_line line) ∧
    ("CH-1234" ∈ Script1.extract_codes_from_line "CH-1234" ∧
      "DP 1234 MM" ∈ Script1.extract_codes_from_line "CH-1234" ∧
      "DPCV 1234 MM" ∈ Script1.extract_codes_from_line "CH-1234") ∧
    Script2.extract_codes_from_line "CH-1234" = ["CH-1234"] := by
  refine ⟨?_, ⟨by decide, by decide, by decide⟩, by decide⟩
  intro line code n hmem hsub hfd
  unfold Script1.extract_codes_from_line at hmem ⊢
  by_cases hskip : Script1.skipMatch line.toList = true
  · rw [if_pos hskip] at hmem
    cases hmem
  · rw [if_neg hskip] at hmem ⊢
    dsimp only at hmem ⊢
    have hsub2 : hasSubChars code.toList ['C', 'H', '-'] = true := by
      have : strContains code "CH-" = hasSubChars code.toList ['C', 'H', '-'] := rfl
      rw [← this]
      exact hsub
    exact foldl_addCode_closed (cleanLine line.toList)
      (Script1.codePatterns.flatMap (fun p => findPat p (cleanLine line.toList))) []
      (fun code2 n2 h2 => absurd h2 (List.not_mem_nil code2))
      code n hmem hsub2 hfd

/-- Witness for the universal part of C2 at the line `"CH-1234"`. -/
theorem c2_amended_witness :
    "CH-1234" ∈ Script1.extract_codes_from_line "CH-1234" ∧
      strContains "CH-1234" "CH-" = true ∧
      firstFourDigits "CH-1234".toList = some ['1', '2', '3', '4'] ∧
      Script1.dpStr ['1', '2', '3', '4'] ∈ Script1.extract_codes_from_line "CH-1234" ∧
      Script1.dpcvStr ['1', '2', '3', '4'] ∈ Script1.extract_codes_from_line "CH-1234" := by
  refine ⟨by decide, by decide, by decide, ?_⟩
  exact c2_amended.1 "CH-1234" "CH-1234" ['1', '2', '3', '4']
    (by decide) (by decide) (by decide)

/-! ### C1 — first-match policy of the matching engines -/

theorem match_items_eq_find (po : Script2.ValveItem) (sos : List Script2.ValveItem) :
    Script2.match_items po sos =
      match sos.find? (fun so => Script2.directB2 po so || Script2.fuzzyB2 po so) with
      | some so => (some so, if Script2.directB2 po so then 100 else 95)
      | none => (none, 0) := by
  induction sos with
  | nil => rfl
  | cons so rest ih =>
    rw [Script2.match_items, List.find?_cons]
    by_cases hd : Script2.directB2 po so
    · rw [if_pos hd]
      simp [hd]
    · rw [if_neg hd]
      by_cases hf : Script2.fuzzyB2 po so
      · rw [if_pos hf]
        simp [hd, hf]
      · rw [if_neg hf]
        simp only [hd, hf, Bool.or_false]
        exact ih

theorem items_match_eq_tiers (cm : Script1.CodeMap) (po so : Script1.ValveItem) :
    Script1.items_match cm po so
      = (Script1.directB po so || Script1.numericB po so || Script1.aliasB cm po so) := by
  unfold Script1.items_match
  by_cases h1 : Script1.directB po so
  · simp [h1]
  · by_cases h2 : Script1.numericB po so
    · simp [h1, h2]
    · by_cases h3 : Script1.aliasB cm po so
      · simp [h1, h2, h3]
      · simp [h1, h2, h3]

/-- C1 counterexample: under `script2.py`'s engine, a PO item `{CH-1234}`
and a single SO candidate `{DP 1234 MM}` share the four-digit fragment
`1234` — so by the claim the numeric tier should make this SO item the
returned first match — yet `match_items` returns no matched item and
score 0. -/
theorem c1_counterexample :
    Script2.match_items ⟨["CH-1234"], "", "", "1", q0, "PO", "", "PO"⟩
        [⟨["DP 1234 MM"], "", "", "1", q0, "SO", "", "SO"⟩] = (none, 0) ∧
      (Script1.codeNums ["CH-1234"]).any
        (fun n => (Script1.codeNums ["DP 1234 MM"]).contains n) = true := by
  refine ⟨by decide, by decide⟩

/-- C1 (amended): each engine returns the first SO item in iteration order
that satisfies one of *its own* tiers, and never a later candidate even if
that candidate would match at a higher-confidence tier.  For `script2.py`'s
engine the tiers are direct intersection (score 100) and MR-stripped fuzzy
equality (score 95) only — no numeric or alias tier — and if no SO item
qualifies the result carries no matched item and score 0.  For `script.py`'s
engine a candidate qualifies exactly when the direct, shared-four-digit
numeric, or alias-table tier holds — there is no fuzzy tier. -/
theorem c1_amended :
    (∀ (po : Script2.ValveItem) (sos : List Script2.ValveItem),
        Script2.match_items po sos =
          match sos.find? (fun so => Script2.directB2 po so || Script2.fuzzyB2 po so) with
          | some so => (some so, if Script2.directB2 po so then 100 else 95)
          | none => (none, 0)) ∧
    (∀ (cm : Script1.CodeMap) (po so : Script1.ValveItem),
        Script1.items_match cm po so
          = (Script1.directB po so || Script1.numericB po so || Script1.aliasB cm po so)) := by
  exact ⟨match_items_eq_find, items_match_eq_tiers⟩

/-! ### C7 — first-pattern-wins quantity extraction -/

/-- C7: the quantity loop (shared by both scripts, each with its own ordered
pattern list) returns the value of the first pattern whose first match
parses to an integer strictly between 0 and 10000 — trying no later pattern
after a success — and defaults to `"1"` when no pattern yields an in-range
integer.  In particular `"QTY: 15000"` yields `"1"` and `"QTY: 25"` yields
`"25"` under both scripts' extractors. -/
theorem c7_quantity_first_win :
    (∀ (pats : List GPat) (l : List Char),
        Script1.qtyLoop pats l =
          match pats.findSome? (fun p => qtyCandidate p l) with
          | some v => natToStr v
          | none => "1") ∧
    (Script1.extract_quantity_and_price "QTY: 15000").1 = "1" ∧
    (Script1.extract_quantity_and_price "QTY: 25").1 = "25" ∧
    (Script2.extract_quantity_and_price "QTY: 15000").1 = "1" ∧
    (Script2.extract_quantity_and_price "QTY: 25").1 = "25" := by
  refine ⟨?_, by decide, by decide, by decide, by decide⟩
  intro pats l
  induction pats with
  | nil => rfl
  | cons p rest ih =>
    rw [Script1.qtyLoop, List.findSome?_cons]
    cases hs : searchG p l with
    | none =>
      have hc : qtyCandidate p l = none := by
        unfold qtyCandidate
        rw [hs]
        rfl
      rw [hc]
      exact ih
    | some g =>
      dsimp only
      by_cases hr : (decide (0 < digitsToNat g) && decide (digitsToNat g < 10000)) = true
      · have hc : qtyCandidate p l = some (digitsToNat g) := by
          unfold qtyCandidate
          rw [hs]
          simp only [Option.some_bind]
          rw [if_pos hr]
        rw [hc, if_pos hr]
      · have hc : qtyCandidate p l = none := by
          unfold qtyCandidate
          rw [hs]
          simp only [Option.some_bind]
          rw [if_neg hr]
        rw [hc, if_neg hr]
        exact ih

/-! ### C8 — material specification extraction -/

/-- C8 counterexample: `script.py`'s `process_line` applies no
material-keyword plausibility check — the line `"CH-1234 (NOTE TO VENDOR)"`
produces an item whose `material_spec` is the parenthesized text
`"NOTE TO VENDOR"` even though that text fails the keyword check, where the
claim requires the empty string. -/
theorem c8_counterexample :
    (Script1.process_line "CH-1234 (NOTE TO VENDOR)" "PO").map Script1.ValveItem.material_spec
        = some "NOTE TO VENDOR" ∧
      Script2.matKeyword "NOTE TO VENDOR".toList = false ∧
      ("NOTE TO VENDOR" : String) ≠ "" := by
  refine ⟨by decide, by decide, by decide⟩

/-- C8 (amended): `script2.py`'s parser sets `material_spec` to the first
parenthesized segment only when it passes the material-keyword check and to
`""` when the segment is absent or fails the check; `script.py`'s parser
sets it to the first parenthesized segment unconditionally (empty only when
no such segment exists). -/
theorem c8_amended :
    (∀ (line doc_type : String) (it : Script2.ValveItem),
        Script2.process_line line doc_type = some it →
          it.material_spec = Script2.extract_material_spec line) ∧
    (∀ line : String,
        Script2.extract_material_spec line =
          match Script1.parenGroup line.toList with
          | some g => if Script2.matKeyword (pyStrip g) then String.mk (pyStrip g) else ""
          | none => "") ∧
    (∀ (line doc_type : String) (it : Script1.ValveItem),
        Script1.process_line line doc_type = some it →
          it.material_spec = Script1.parenSpec line.toList) ∧
    (∀ line : String,
        Script1.parenSpec line.toList =
          match Script1.parenGroup line.toList with
          | some g => String.mk (pyStrip g)
          | none => "") ∧
    Script2.extract_material_spec "CH-1234 (NOTE TO VENDOR)" = "" := by
  refine ⟨?_, ?_, ?_, ?_, by decide⟩
  · intro line doc_type it h
    unfold Script2.process_line at h
    simp at h
    obtain ⟨h1, h2, h3⟩ := h
    subst h3
    rfl
  · intro line
    unfold Script2.extract_material_spec
    cases hg : Script1.parenGroup line.toList <;> rfl
  · intro line doc_type it h
    unfold Script1.process_line at h
    simp at h
    obtain ⟨h1, h2, h3⟩ := h
    subst h3
    rfl
  · intro line
    unfold Script1.parenSpec
    cases hg : Script1.parenGroup line.toList <;> rfl

/-- Witness for C8 (amended) at concrete parsed lines. -/
theorem c8_amended_witness :
    (∃ it : Script2.ValveItem,
        Script2.process_line "CH-1234 (NOTE TO VENDOR)" "PO" = some it ∧
          it.material_spec = Script2.extract_material_spec "CH-1234 (NOTE TO VENDOR)") ∧
    (∃ it : Script1.ValveItem,
        Script1.process_line "CH-1234 (NOTE TO VENDOR)" "PO" = some it ∧
          it.material_spec = Script1.parenSpec "CH-1234 (NOTE TO VENDOR)".toList) := by
  constructor
  · refine ⟨⟨["CH-1234"], "", "", "1", q0, "PO", "CH-1234 (NOTE TO VENDOR)", "PO"⟩, by decide, ?_⟩
    exact c8_amended.1 "CH-1234 (NOTE TO VENDOR)" "PO" _ (by decide)
  · refine ⟨⟨"", ["CH-1234", "DP 1234 MM", "DPCV 1234 MM"], "CH-1234 (NOTE TO VENDOR)", "1",
      "NOTE TO VENDOR", "PO", "CH-1234 (NOTE TO VENDOR)", q0⟩, by decide, ?_⟩
    exact c8_amended.2.2.1 "CH-1234 (NOTE TO VENDOR)" "PO" _ (by decide)

/-! ### C5 — price tolerance -/

theorem stepPo_price_record (cm : Script1.CodeMap) (sos : List Script1.ValveItem)
    (a : Script1.Analysis) (po so : Script1.ValveItem)
    (h : sos.find? (fun s => Script1.items_match cm po s) = some so) :
    (Script1.stepPo cm sos a po).price_mismatches = a.price_mismatches ↔
      |po.price - so.price| ≤ 1 / 100 := by
  unfold Script1.stepPo
  rw [h]
  dsimp only
  by_cases hd : absDiffGtCent po.price so.price = true
  · rw [if_pos hd]
    have h1 : a.price_mismatches ++ [(po.item_codes.headD "", po.price, so.price)]
        ≠ a.price_mismatches := by
      intro hcon
      have := congrArg List.length hcon
      simp at this
    have h2 := (absDiffGtCent_iff po.price so.price).mp hd
    constructor
    · intro hcon
      exact absurd hcon h1
    · intro hle
      exact absurd hle (by linarith)
  · rw [if_neg hd]
    have h2 := (absDiffGtCent_false_iff po.price so.price).mp (by simpa using hd)
    exact ⟨fun _ => h2, fun _ => rfl⟩

theorem matchRowFor_price (sos : List Script2.ValveItem) (po so : Script2.ValveItem)
    (h : (Script2.match_items po sos).1 = some so) :
    (Script2.matchRowFor sos po).price_match = true ↔ |po.price - so.price| < 1 / 100 := by
  unfold Script2.matchRowFor
  dsimp only
  rw [h]
  dsimp only
  exact absDiffLtCent_iff po.price so.price

/-- C5 counterexample: in `script2.py`'s reconciliation analyzer prices
`100.02` and `100.01` — absolute difference exactly `0.01` — are reported as
a price mismatch (`price_match = false`), whereas the claim ("equal exactly
when the difference is at most 0.01") requires them to count as equal. -/
theorem c5_counterexample :
    (Script2.analyze_matches
        [⟨["CH-1234"], "", "", "1", mkRat 10002 100, "PO", "", "PO"⟩,
         ⟨["CH-1234"], "", "", "1", mkRat 10001 100, "SO", "", "SO"⟩]).map
        Script2.MatchRow.price_match = [false] ∧
      |mkRat 10002 100 - mkRat 10001 100| ≤ 1 / 100 := by
  constructor
  · decide
  · rw [Rat.mkRat_eq_div, Rat.mkRat_eq_div]
    rw [abs_sub_le_iff]
    constructor <;> norm_num

/-- C5 (amended): for matched pairs, `script.py`'s analyzer records a price
discrepancy exactly when the absolute difference exceeds `0.01` — so a
difference of exactly `0.01` counts as equal there — while `script2.py`'s
analyzer marks the prices as matching exactly when the absolute difference
is strictly below `0.01` — so a difference of exactly `0.01` counts as a
mismatch there.  Both treat `100.00` vs `100.005` as equal and `100.00` vs
`100.02` as mismatched. -/
theorem c5_amended :
    (∀ (cm : Script1.CodeMap) (sos : List Script1.ValveItem) (a : Script1.Analysis)
        (po so : Script1.ValveItem),
        sos.find? (fun s => Script1.items_match cm po s) = some so →
          ((Script1.stepPo cm sos a po).price_mismatches = a.price_mismatches ↔
            |po.price - so.price| ≤ 1 / 100)) ∧
    (∀ (sos : List Script2.ValveItem) (po so : Script2.ValveItem),
        (Script2.match_items po sos).1 = some so →
          ((Script2.matchRowFor sos po).price_match = true ↔
            |po.price - so.price| < 1 / 100)) ∧
    (absDiffGtCent (mkRat 100 1) (mkRat 100005 1000) = false ∧
      absDiffLtCent (mkRat 100 1) (mkRat 100005 1000) = true ∧
      absDiffGtCent (mkRat 100 1) (mkRat 10002 100) = true ∧
      absDiffLtCent (mkRat 100 1) (mkRat 10002 100) = false) := by
  refine ⟨stepPo_price_record, matchRowFor_price, by decide, by decide, by decide, by decide⟩

/-- Witness for C5 (amended) at a concretely matched pair. -/
theorem c5_amended_witness :
    ((Script1.stepPo Script1.emptyMap
        [⟨"", ["CH-1234"], "", "10", "", "SO", "", mkRat 25000 100⟩]
        Script1.analysisInit
        ⟨"", ["CH-1234"], "", "10", "", "PO", "", mkRat 25000 100⟩).price_mismatches
      = Script1.analysisInit.price_mismatches ↔
        |(⟨"", ["CH-1234"], "", "10", "", "PO", "", mkRat 25000 100⟩ :
            Script1.ValveItem).price -
          (⟨"", ["CH-1234"], "", "10", "", "SO", "", mkRat 25000 100⟩ :
            Script1.ValveItem).price| ≤ 1 / 100) ∧
    ((Script2.matchRowFor [⟨["CH-1234"], "", "", "1", mkRat 10001 100, "SO", "", "SO"⟩]
        ⟨["CH-1234"], "", "", "1", mkRat 10002 100, "PO", "", "PO"⟩).price_match = true ↔
      |(⟨["CH-1234"], "", "", "1", mkRat 10002 100, "PO", "", "PO"⟩ :
          Script2.ValveItem).price -
        (⟨["CH-1234"], "", "", "1", mkRat 10001 100, "SO", "", "SO"⟩ :
          Script2.ValveItem).price| < 1 / 100) := by
  constructor
  · exact c5_amended.1 Script1.emptyMap _ Script1.analysisInit _ _ (by decide)
  · exact c5_amended.2.1 _ _ _ (by decide)

/-! ### C4 — the end-to-end scenario -/

/-- C4 counterexample: on the end-to-end scenario's lines, `script2.py`'s
pipeline parses both items (sharing the numeric fragment `1234`), yet its
matching engine — which has no numeric tier — reports no match and score 0,
where the claim requires a (numeric-tier) match for the pair. -/
theorem c4_counterexample :
    Script2.process_line "CH-1234 MR QTY 10 USD 250.00 (ASTM A216 GR WCB)" "PO"
        = some ⟨["CH-1234 MR"], "", "ASTM A216 GR WCB", "10", mkRat 25000 100, "PO",
                "CH-1234 MR QTY 10 USD 250.00 (ASTM A216 GR WCB)", "PO"⟩ ∧
    Script2.process_line "DP 1234 MM #12 M-5 Quantity 10 UM Amount USD 250.00 (ASTM A216 GR WCB)" "SO"
        = some ⟨["DP 1234 MM #12 M-5"], "", "ASTM A216 GR WCB", "10", mkRat 25000 100, "SO",
                "DP 1234 MM #12 M-5 Quantity 10 UM Amount USD 250.00 (ASTM A216 GR WCB)", "SO"⟩ ∧
    (Script1.codeNums ["CH-1234 MR"]).contains "1234" = true ∧
    (Script1.codeNums ["DP 1234 MM #12 M-5"]).contains "1234" = true ∧
    Script2.match_items
        ⟨["CH-1234 MR"], "", "ASTM A216 GR WCB", "10", mkRat 25000 100, "PO",
         "CH-1234 MR QTY 10 USD 250.00 (ASTM A216 GR WCB)", "PO"⟩
        [⟨["DP 1234 MM #12 M-5"], "", "ASTM A216 GR WCB", "10", mkRat 25000 100, "SO",
          "DP 1234 MM #12 M-5 Quantity 10 UM Amount USD 250.00 (ASTM A216 GR WCB)", "SO"⟩]
      = (none, 0) := by
  refine ⟨by decide, by decide, by decide, by decide, by decide⟩

/-- C4 (amended): under `script.py`'s pipeline the end-to-end scenario holds
as claimed — with the catalog mapping `VLV-100 ↔ X100` loaded, the PO line
`"CH-1234 MR QTY 10 USD 250.00 (ASTM A216 GR WCB)"` and the SO line
`"DP 1234 MM #12 M-5 Quantity 10 UM Amount USD 250.00 (ASTM A216 GR WCB)"`
parse to non-empty identifier sets sharing the numeric fragment `1234`, the
engine matches the pair at the numeric tier (the direct tier fails), and the
analyzer records the pair as matched with no quantity, price, or material
discrepancy.  `script2.py`'s pipeline parses both lines to non-empty sets
sharing the fragment as well, but its engine reports no match for the pair
(see the counterexample). -/
theorem c4_amended :
    Script1.process_line "CH-1234 MR QTY 10 USD 250.00 (ASTM A216 GR WCB)" "PO"
        = some ⟨"", ["CH-1234 MR", "DP 1234 MM", "DPCV 1234 MM", "CH-1234"],
                "CH-1234 MR QTY 10 USD 250.00 (ASTM A216 GR WCB)", "10", "ASTM A216 GR WCB",
                "PO", "CH-1234 MR QTY 10 USD 250.00 (ASTM A216 GR WCB)", mkRat 25000 100⟩ ∧
    Script1.process_line "DP 1234 MM #12 M-5 Quantity 10 UM Amount USD 250.00 (ASTM A216 GR WCB)" "SO"
        = some ⟨"", ["DP 1234 MM #12 M-5"],
                "DP 1234 MM #12 M-5 Quantity 10 UM Amount USD 250.00 (ASTM A216 GR WCB)",
                "10", "ASTM A216 GR WCB", "SO",
                "DP 1234 MM #12 M-5 Quantity 10 UM Amount USD 250.00 (ASTM A216 GR WCB)",
                mkRat 25000 100⟩ ∧
    (Script1.codeNums ["CH-1234 MR", "DP 1234 MM", "DPCV 1234 MM", "CH-1234"]).contains "1234"
        = true ∧
    (Script1.codeNums ["DP 1234 MM #12 M-5"]).contains "1234" = true ∧
    Script1.directB
        ⟨"", ["CH-1234 MR", "DP 1234 MM", "DPCV 1234 MM", "CH-1234"],
         "CH-1234 MR QTY 10 USD 250.00 (ASTM A216 GR WCB)", "10", "ASTM A216 GR WCB",
         "PO", "CH-1234 MR QTY 10 USD 250.00 (ASTM A216 GR WCB)", mkRat 25000 100⟩
        ⟨"", ["DP 1234 MM #12 M-5"],
         "DP 1234 MM #12 M-5 Quantity 10 UM Amount USD 250.00 (ASTM A216 GR WCB)",
         "10", "ASTM A216 GR WCB", "SO",
         "DP 1234 MM #12 M-5 Quantity 10 UM Amount USD 250.00 (ASTM A216 GR WCB)",
         mkRat 25000 100⟩ = false ∧
    Script1.numericB
        ⟨"", ["CH-1234 MR", "DP 1234 MM", "DPCV 1234 MM", "CH-1234"],
         "CH-1234 MR QTY 10 USD 250.00 (ASTM A216 GR WCB)", "10", "ASTM A216 GR WCB",
         "PO", "CH-1234 MR QTY 10 USD 250.00 (ASTM A216 GR WCB)", mkRat 25000 100⟩
        ⟨"", ["DP 1234 MM #12 M-5"],
         "DP 1234 MM #12 M-5 Quantity 10 UM Amount USD 250.00 (ASTM A216 GR WCB)",
         "10", "ASTM A216 GR WCB", "SO",
         "DP 1234 MM #12 M-5 Quantity 10 UM Amount USD 250.00 (ASTM A216 GR WCB)",
         mkRat 25000 100⟩ = true ∧
    Script1.items_match (Script1.load_erp_codes [("VLV-100", "X100")])
        ⟨"", ["CH-1234 MR", "DP 1234 MM", "DPCV 1234 MM", "CH-1234"],
         "CH-1234 MR QTY 10 USD 250.00 (ASTM A216 GR WCB)", "10", "ASTM A216 GR WCB",
         "PO", "CH-1234 MR QTY 10 USD 250.00 (ASTM A216 GR WCB)", mkRat 25000 100⟩
        ⟨"", ["DP 1234 MM #12 M-5"],
         "DP 1234 MM #12 M-5 Quantity 10 UM Amount USD 250.00 (ASTM A216 GR WCB)",
         "10", "ASTM A216 GR WCB", "SO",
         "DP 1234 MM #12 M-5 Quantity 10 UM Amount USD 250.00 (ASTM A216 GR WCB)",
         mkRat 25000 100⟩ = true ∧
    Script1.analyze_and_report (Script1.load_erp_codes [("VLV-100", "X100")])
        [⟨"", ["CH-1234 MR", "DP 1234 MM", "DPCV 1234 MM", "CH-1234"],
          "CH-1234 MR QTY 10 USD 250.00 (ASTM A216 GR WCB)", "10", "ASTM A216 GR WCB",
          "PO", "CH-1234 MR QTY 10 USD 250.00 (ASTM A216 GR WCB)", mkRat 25000 100⟩,
         ⟨"", ["DP 1234 MM #12 M-5"],
          "DP 1234 MM #12 M-5 Quantity 10 UM Amount USD 250.00 (ASTM A216 GR WCB)",
          "10", "ASTM A216 GR WCB", "SO",
          "DP 1234 MM #12 M-5 Quantity 10 UM Amount USD 250.00 (ASTM A216 GR WCB)",
          mkRat 25000 100⟩]
      = ⟨1, 1, 0, [], [], [], []⟩ ∧
    Script2.process_line "CH-1234 MR QTY 10 USD 250.00 (ASTM A216 GR WCB)" "PO"
        = some ⟨["CH-1234 MR"], "", "ASTM A216 GR WCB", "10", mkRat 25000 100, "PO",
                "CH-1234 MR QTY 10 USD 250.00 (ASTM A216 GR WCB)", "PO"⟩ ∧
    Script2.process_line "DP 1234 MM #12 M-5 Quantity 10 UM Amount USD 250.00 (ASTM A216 GR WCB)" "SO"
        = some ⟨["DP 1234 MM #12 M-5"], "", "ASTM A216 GR WCB", "10", mkRat 25000 100, "SO",
                "DP 1234 MM #12 M-5 Quantity 10 UM Amount USD 250.00 (ASTM A216 GR WCB)", "SO"⟩ := by
  refine ⟨by decide, by decide, by decide, by decide, by decide, by decide, by decide,
          by decide, by decide, by decide⟩

/-! ### C3 — idempotence of the code normalizer -/

theorem upc_idem (c : Char) : upc (upc c) = upc c := by
  unfold upc
  by_cases h : 97 ≤ c.toNat ∧ c.toNat ≤ 122
  · rw [if_pos h]
    obtain ⟨ha, hb⟩ := h
    have h2 : 65 ≤ c.toNat - 32 := by omega
    have h3 : c.toNat - 32 ≤ 90 := by omega
    set k := c.toNat - 32 with hk
    clear_value k
    interval_cases k <;> decide
  · rw [if_neg h, if_neg h]

theorem upc_space : upc ' ' = ' ' := by decide

theorem dropWhile_eq_drop (p : Char → Bool) (l : List Char) :
    ∃ k, List.dropWhile p l = l.drop k := by
  induction l with
  | nil => exact ⟨0, rfl⟩
  | cons c r ih =>
    rw [List.dropWhile_cons]
    by_cases hp : p c = true
    · rw [if_pos hp]
      obtain ⟨k, hk⟩ := ih
      exact ⟨k + 1, by simpa using hk⟩
    · rw [if_neg hp]
      exact ⟨0, rfl⟩

theorem dropWsL_eq_drop (l : List Char) : ∃ k, dropWsL l = l.drop k := by
  induction l with
  | nil => exact ⟨0, rfl⟩
  | cons c r ih =>
    rw [dropWsL]
    by_cases hp : isWS c = true
    · rw [if_pos hp]
      obtain ⟨k, hk⟩ := ih
      exact ⟨k + 1, by simpa using hk⟩
    · rw [if_neg hp]
      exact ⟨0, rfl⟩

theorem dropWsL_head (l : List Char) : ∀ c ∈ (dropWsL l).head?, isWS c = false := by
  induction l with
  | nil => intro c hc; cases hc
  | cons a r ih =>
    rw [dropWsL]
    by_cases hp : isWS a = true
    · rw [if_pos hp]
      exact ih
    · rw [if_neg hp]
      intro c hc
      cases hc
      simpa using hp

theorem dropWsL_eq_self (l : List Char) (h : ∀ c ∈ l.head?, isWS c = false) :
    dropWsL l = l := by
  cases l with
  | nil => rfl
  | cons a r =>
    rw [dropWsL]
    have := h a rfl
    rw [if_neg (by simp [this])]

theorem dropWsR_eq_self (l : List Char) (h : ∀ c ∈ l.getLast?, isWS c = false) :
    dropWsR l = l := by
  unfold dropWsR
  rw [dropWsL_eq_self l.reverse (by rw [List.head?_reverse]; exact h), List.reverse_reverse]

theorem dropWsR_last (l : List Char) : ∀ c ∈ (dropWsR l).getLast?, isWS c = false := by
  unfold dropWsR
  rw [List.getLast?_reverse]
  exact dropWsL_head l.reverse

theorem dropWsR_isPre (l : List Char) : ∃ t, dropWsR l ++ t = l := by
  unfold dropWsR
  obtain ⟨k, hk⟩ := dropWsL_eq_drop l.reverse
  rw [hk]
  refine ⟨(l.reverse.take k).reverse, ?_⟩
  rw [← List.reverse_append, List.take_append_drop, List.reverse_reverse]

theorem dropWsR_head (l : List Char) (h : ∀ c ∈ l.head?, isWS c = false) :
    ∀ c ∈ (dropWsR l).head?, isWS c = false := by
  obtain ⟨t, ht⟩ := dropWsR_isPre l
  cases hd : dropWsR l with
  | nil => intro c hc; cases hc
  | cons a r =>
    intro c hc
    cases hc
    apply h
    rw [← ht, hd]
    rfl

theorem pyStrip_head (l : List Char) : ∀ c ∈ (pyStrip l).head?, isWS c = false := by
  unfold pyStrip
  exact dropWsR_head _ (dropWsL_head l)

theorem pyStrip_last (l : List Char) : ∀ c ∈ (pyStrip l).getLast?, isWS c = false := by
  unfold pyStrip
  exact dropWsR_last _

theorem pyStrip_eq_self (l : List Char) (h1 : ∀ c ∈ l.head?, isWS c = false)
    (h2 : ∀ c ∈ l.getLast?, isWS c = false) : pyStrip l = l := by
  unfold pyStrip
  rw [dropWsL_eq_self l h1, dropWsR_eq_self l h2]

theorem collapseAux_mem (b : Bool) (l : List Char) :
    ∀ c ∈ collapseAux b l, c = ' ' ∨ c ∈ l := by
  induction l generalizing b with
  | nil => intro c hc; cases hc
  | cons a r ih =>
    rw [collapseAux]
    by_cases hp : isWS a = true
    · rw [if_pos hp]
      cases b
      · simp only [Bool.false_eq_true, if_false]
        intro c hc
        rcases List.mem_cons.mp hc with rfl | hc
        · exact Or.inl rfl
        · rcases ih true c hc with h | h
          · exact Or.inl h
          · exact Or.inr (List.mem_cons_of_mem a h)
      · simp only [if_true]
        intro c hc
        rcases ih true c hc with h | h
        · exact Or.inl h
        · exact Or.inr (List.mem_cons_of_mem a h)
    · rw [if_neg hp]
      intro c hc
      rcases List.mem_cons.mp hc with rfl | hc
      · exact Or.inr (List.mem_cons_self c r)
      · rcases ih false c hc with h | h
        · exact Or.inl h
        · exact Or.inr (List.mem_cons_of_mem a h)

theorem collapseAux_true_head (l : List Char) :
    ∀ c ∈ (collapseAux true l).head?, isWS c = false := by
  induction l with
  | nil => intro c hc; cases hc
  | cons a r ih =>
    rw [collapseAux]
    by_cases hp : isWS a = true
    · rw [if_pos hp, if_pos rfl]
      exact ih
    · rw [if_neg hp]
      intro c hc
      cases hc
      simpa using hp

/-- The relation "no two adjacent whitespace characters". -/
theorem collapseAux_wsOK (l : List Char) :
    ∀ b : Bool, (∀ c ∈ collapseAux b l, isWS c = true → c = ' ') ∧
      List.Chain' (fun a b2 => ¬(isWS a = true ∧ isWS b2 = true)) (collapseAux b l) := by
  induction l with
  | nil => intro b; exact ⟨fun c hc => absurd hc (List.not_mem_nil c), List.chain'_nil⟩
  | cons a r ih =>
    intro b
    rw [collapseAux]
    by_cases hp : isWS a = true
    · rw [if_pos hp]
      cases b
      · simp only [Bool.false_eq_true, if_false]
        constructor
        · intro c hc _
          rcases List.mem_cons.mp hc with rfl | hc
          · rfl
          · exact (ih true).1 c hc ‹_›
        · rw [List.chain'_cons']
          refine ⟨?_, (ih true).2⟩
          intro y hy
          have := collapseAux_true_head r y hy
          intro hcon
          rw [this] at hcon
          exact absurd hcon.2 (by simp)
      · simp only [if_true]
        exact ih true
    · rw [if_neg hp]
      constructor
      · intro c hc hws
        rcases List.mem_cons.mp hc with rfl | hc
        · exact absurd hws (by simp [hp])
        · exact (ih false).1 c hc hws
      · rw [List.chain'_cons']
        refine ⟨?_, (ih false).2⟩
        intro y _
        intro hcon
        exact absurd hcon.1 (by simp [hp])

theorem collapseAux_eq_self (l : List Char)
    (hmem : ∀ c ∈ l, isWS c = true → c = ' ')
    (hch : List.Chain' (fun a b2 => ¬(isWS a = true ∧ isWS b2 = true)) l) :
    collapseAux false l = l ∧
      ((∀ c ∈ l.head?, isWS c = false) → collapseAux true l = l) := by
  induction l with
  | nil => exact ⟨rfl, fun _ => rfl⟩
  | cons a r ih =>
    have hmem2 : ∀ c ∈ r, isWS c = true → c = ' ' :=
      fun c hc => hmem c (List.mem_cons_of_mem a hc)
    rw [List.chain'_cons'] at hch
    obtain ⟨hhead, hch2⟩ := hch
    obtain ⟨ih1, ih2⟩ := ih hmem2 hch2
    constructor
    · rw [collapseAux]
      by_cases hp : isWS a = true
      · rw [if_pos hp]
        simp only [Bool.false_eq_true, if_false]
        have ha : a = ' ' := hmem a (List.mem_cons_self a r) hp
        have hr : collapseAux true r = r := by
          apply ih2
          intro c hc
          have := hhead c hc
          by_contra hcon
          simp only [Bool.not_eq_false] at hcon
          exact this ⟨hp, hcon⟩
        rw [hr, ha]
      · rw [if_neg hp, ih1]
    · intro hhd
      rw [collapseAux]
      have hp : isWS a = false := hhd a rfl
      rw [if_neg (by simp [hp]), ih1]

theorem collapseWs_wsOK (l : List Char) :
    (∀ c ∈ collapseWs l, isWS c = true → c = ' ') ∧
      List.Chain' (fun a b2 => ¬(isWS a = true ∧ isWS b2 = true)) (collapseWs l) :=
  collapseAux_wsOK l false

theorem collapseWs_eq_self (l : List Char)
    (hmem : ∀ c ∈ l, isWS c = true → c = ' ')
    (hch : List.Chain' (fun a b2 => ¬(isWS a = true ∧ isWS b2 = true)) l) :
    collapseWs l = l :=
  (collapseAux_eq_self l hmem hch).1

theorem normalize_code_toList (s : String) :
    (Script1.normalize_code s).toList
      = pyStrip (Script1.normalize_code.stripQual (Script1.normalize_code.dropMR
          (collapseWs (Script1.normalize_code.dropD ((pyStrip s.toList).map upc))))) := by
  unfold Script1.normalize_code
  rfl

theorem chain'_take {α : Type} {R : α → α → Prop} (l : List α) (n : Nat)
    (h : List.Chain' R l) : List.Chain' R (l.take n) := by
  rw [← List.take_append_drop n l] at h
  exact h.left_of_append

theorem chain'_drop {α : Type} {R : α → α → Prop} (l : List α) (n : Nat)
    (h : List.Chain' R l) : List.Chain' R (l.drop n) := by
  rw [← List.take_append_drop n l] at h
  exact h.right_of_append

theorem chain'_of_symm_reverse {α : Type} {R : α → α → Prop}
    (hsym : ∀ a b, R a b → R b a) (l : List α) (h : List.Chain' R l) :
    List.Chain' R l.reverse :=
  List.chain'_reverse.mpr (h.imp fun a b hr => hsym a b hr)

theorem dropWsL_chain' {R : Char → Char → Prop} (l : List Char)
    (h : List.Chain' R l) : List.Chain' R (dropWsL l) := by
  obtain ⟨k, hk⟩ := dropWsL_eq_drop l
  rw [hk]
  exact chain'_drop _ _ h

theorem dropWsR_chain' {R : Char → Char → Prop} (hsym : ∀ a b, R a b → R b a)
    (l : List Char) (h : List.Chain' R l) : List.Chain' R (dropWsR l) := by
  unfold dropWsR
  exact chain'_of_symm_reverse hsym _ (dropWsL_chain' _ (chain'_of_symm_reverse hsym l h))

theorem dropWsL_mem {c : Char} (l : List Char) (h : c ∈ dropWsL l) : c ∈ l := by
  obtain ⟨k, hk⟩ := dropWsL_eq_drop l
  rw [hk] at h
  exact (List.drop_sublist k l).mem h

theorem dropWsR_mem {c : Char} (l : List Char) (h : c ∈ dropWsR l) : c ∈ l := by
  obtain ⟨t, ht⟩ := dropWsR_isPre l
  rw [← ht]
  exact List.mem_append_left t h

theorem pyStrip_mem {c : Char} (l : List Char) (h : c ∈ pyStrip l) : c ∈ l := by
  unfold pyStrip at h
  exact dropWsL_mem l (dropWsR_mem (dropWsL l) h)

theorem afterQual_eq_drop (x r : List Char)
    (h : Script1.normalize_code.afterQual x = some r) : ∃ j, r = x.drop j := by
  cases x with
  | nil => cases h
  | cons c rr =>
    rw [Script1.normalize_code.afterQual] at h
    by_cases hws : isWS c = true
    · rw [if_pos hws] at h
      cases h
      obtain ⟨j, hj⟩ := dropWhile_eq_drop isWS rr
      exact ⟨j + 1, by simpa using hj⟩
    · rw [if_neg hws] at h
      cases h

theorem qualMatch_eq_drop (l r : List Char)
    (h : Script1.normalize_code.qualMatch l = some r) : ∃ k, r = l.drop k := by
  rw [Script1.normalize_code.qualMatch] at h
  obtain ⟨k1, hk1⟩ := dropWhile_eq_drop isWS l
  split at h
  · obtain ⟨j, hj⟩ := afterQual_eq_drop _ _ h
    refine ⟨k1 + 5 + j, ?_⟩
    rw [hj, hk1, List.drop_drop, List.drop_drop]
    congr 1
    omega
  · split at h
    · obtain ⟨j, hj⟩ := afterQual_eq_drop _ _ h
      refine ⟨k1 + 5 + j, ?_⟩
      rw [hj, hk1, List.drop_drop, List.drop_drop]
      congr 1
      omega
    · cases h

theorem stripQual_mem {c : Char} (l : List Char)
    (h : c ∈ Script1.normalize_code.stripQual l) : c ∈ l := by
  rw [Script1.normalize_code.stripQual] at h
  cases hq : Script1.normalize_code.qualMatch l with
  | some r =>
    rw [hq] at h
    obtain ⟨k, hk⟩ := qualMatch_eq_drop l r hq
    rw [hk] at h
    exact (List.drop_sublist k l).mem h
  | none =>
    rw [hq] at h
    exact h

theorem stripQual_chain' {R : Char → Char → Prop} (l : List Char)
    (h : List.Chain' R l) : List.Chain' R (Script1.normalize_code.stripQual l) := by
  rw [Script1.normalize_code.stripQual]
  cases hq : Script1.normalize_code.qualMatch l with
  | some r =>
    obtain ⟨k, hk⟩ := qualMatch_eq_drop l r hq
    rw [hk]
    exact chain'_drop _ _ h
  | none => exact h

theorem dropD_mem {c : Char} (l : List Char)
    (h : c ∈ Script1.normalize_code.dropD l) : c ∈ l := by
  rw [Script1.normalize_code.dropD] at h
  split at h
  · exact (List.take_sublist _ l).mem h
  · exact h

theorem dropMR_mem {c : Char} (l : List Char)
    (h : c ∈ Script1.normalize_code.dropMR l) : c ∈ l := by
  rw [Script1.normalize_code.dropMR] at h
  split at h
  · exact (List.take_sublist _ l).mem h
  · exact h

theorem dropMR_chain' {R : Char → Char → Prop} (l : List Char)
    (h : List.Chain' R l) : List.Chain' R (Script1.normalize_code.dropMR l) := by
  rw [Script1.normalize_code.dropMR]
  split
  · exact chain'_take _ _ h
  · exact h

theorem collapseWs_mem {c : Char} (l : List Char) (h : c ∈ collapseWs l) :
    c = ' ' ∨ c ∈ l := collapseAux_mem false l c h

/-- Structural properties of every `normalize_code` output: it is stripped,
uppercase-stable, and whitespace-collapsed. -/
theorem normalize_props (s : String) :
    (∀ c ∈ (Script1.normalize_code s).toList.head?, isWS c = false) ∧
    (∀ c ∈ (Script1.normalize_code s).toList.getLast?, isWS c = false) ∧
    (∀ c ∈ (Script1.normalize_code s).toList, upc c = c) ∧
    (∀ c ∈ (Script1.normalize_code s).toList, isWS c = true → c = ' ') ∧
    List.Chain' (fun a b2 => ¬(isWS a = true ∧ isWS b2 = true))
      (Script1.normalize_code s).toList := by
  rw [normalize_code_toList]
  have hup1 : ∀ c ∈ (pyStrip s.toList).map upc, upc c = c := by
    intro c hc
    rw [List.mem_map] at hc
    obtain ⟨x, _, rfl⟩ := hc
    exact upc_idem x
  have hup2 : ∀ c ∈ Script1.normalize_code.dropD ((pyStrip s.toList).map upc), upc c = c :=
    fun c hc => hup1 c (dropD_mem _ hc)
  have hup3 : ∀ c ∈ collapseWs (Script1.normalize_code.dropD ((pyStrip s.toList).map upc)),
      upc c = c := by
    intro c hc
    rcases collapseWs_mem _ hc with rfl | hc
    · exact upc_space
    · exact hup2 c hc
  have hup4 : ∀ c ∈ Script1.normalize_code.dropMR
      (collapseWs (Script1.normalize_code.dropD ((pyStrip s.toList).map upc))), upc c = c :=
    fun c hc => hup3 c (dropMR_mem _ hc)
  have hup5 : ∀ c ∈ Script1.normalize_code.stripQual (Script1.normalize_code.dropMR
      (collapseWs (Script1.normalize_code.dropD ((pyStrip s.toList).map upc)))), upc c = c :=
    fun c hc => hup4 c (stripQual_mem _ hc)
  have hws3 := collapseWs_wsOK (Script1.normalize_code.dropD ((pyStrip s.toList).map upc))
  have hws4 : ∀ c ∈ Script1.normalize_code.dropMR
      (collapseWs (Script1.normalize_code.dropD ((pyStrip s.toList).map upc))),
      isWS c = true → c = ' ' :=
    fun c hc => hws3.1 c (dropMR_mem _ hc)
  have hws5 : ∀ c ∈ Script1.normalize_code.stripQual (Script1.normalize_code.dropMR
      (collapseWs (Script1.normalize_code.dropD ((pyStrip s.toList).map upc)))),
      isWS c = true → c = ' ' :=
    fun c hc => hws4 c (stripQual_mem _ hc)
  have hsym : ∀ a b2 : Char, ¬(isWS a = true ∧ isWS b2 = true) →
      ¬(isWS b2 = true ∧ isWS a = true) := by
    intro a b2 h hcon
    exact h ⟨hcon.2, hcon.1⟩
  have hch5 : List.Chain' (fun a b2 => ¬(isWS a = true ∧ isWS b2 = true))
      (Script1.normalize_code.stripQual (Script1.normalize_code.dropMR
        (collapseWs (Script1.normalize_code.dropD ((pyStrip s.toList).map upc))))) :=
    stripQual_chain' _ (dropMR_chain' _ hws3.2)
  refine ⟨pyStrip_head _, pyStrip_last _, ?_, ?_, ?_⟩
  · exact fun c hc => hup5 c (pyStrip_mem _ hc)
  · exact fun c hc => hws5 c (pyStrip_mem _ hc)
  · unfold pyStrip
    exact dropWsR_chain' hsym _ (dropWsL_chain' _ hch5)

theorem strMk_toList (x : String) : String.mk x.toList = x := rfl

theorem normalize_code_eq (s : String) :
    Script1.normalize_code s
      = String.mk (pyStrip (Script1.normalize_code.stripQual (Script1.normalize_code.dropMR
          (collapseWs (Script1.normalize_code.dropD ((pyStrip s.toList).map upc)))))) := by
  unfold Script1.normalize_code
  rfl

/-- C3 counterexample: the normalizer is not idempotent — it strips only one
leading qualifier word per pass, so
`normalize("CHECK VALVE X") = "VALVE X"` while
`normalize(normalize("CHECK VALVE X")) = "X"`. -/
theorem c3_counterexample :
    Script1.normalize_code (Script1.normalize_code "CHECK VALVE X")
      ≠ Script1.normalize_code "CHECK VALVE X" := by
  decide

/-- C3 (amended): the normalizer is idempotent on every string whose
normalized form does not itself still end in a `[D]` discriminator or an
`MR` token and does not itself still begin with a `VALVE`/`CHECK` qualifier
followed by whitespace (the non-idempotent inputs are exactly those whose
output still exposes one of the three strip patterns, as in the
counterexample). -/
theorem c3_amended (s : String)
    (h1 : endsWithChars (Script1.normalize_code s).toList ['[', 'D', ']'] = false)
    (h2 : endsWithChars (Script1.normalize_code s).toList ['M', 'R'] = false)
    (h3 : Script1.normalize_code.qualMatch (Script1.normalize_code s).toList = none) :
    Script1.normalize_code (Script1.normalize_code s) = Script1.normalize_code s := by
  obtain ⟨hh, hl, hup, hws, hch⟩ := normalize_props s
  have e1 : pyStrip (Script1.normalize_code s).toList = (Script1.normalize_code s).toList :=
    pyStrip_eq_self _ hh hl
  have e2 : ((Script1.normalize_code s).toList).map upc = (Script1.normalize_code s).toList := by
    have := List.map_congr_left (l := (Script1.normalize_code s).toList)
      (f := upc) (g := id) (fun a ha => hup a ha)
    rw [this, List.map_id]
  have e3 : Script1.normalize_code.dropD (Script1.normalize_code s).toList
      = (Script1.normalize_code s).toList := by
    rw [Script1.normalize_code.dropD, h1]
    simp
  have e4 : collapseWs (Script1.normalize_code s).toList
      = (Script1.normalize_code s).toList := collapseWs_eq_self _ hws hch
  have e5 : Script1.normalize_code.dropMR (Script1.normalize_code s).toList
      = (Script1.normalize_code s).toList := by
    rw [Script1.normalize_code.dropMR, h2]
    simp
  have e6 : Script1.normalize_code.stripQual (Script1.normalize_code s).toList
      = (Script1.normalize_code s).toList := by
    rw [Script1.normalize_code.stripQual, h3]
  rw [normalize_code_eq (Script1.normalize_code s), e1, e2, e3, e4, e5, e6, e1]
  exact strMk_toList _

/-- Witness for C3 (amended) at a concrete input. -/
theorem c3_amended_witness :
    endsWithChars (Script1.normalize_code " ch-1234 mr ").toList ['[', 'D', ']'] = false ∧
    endsWithChars (Script1.normalize_code " ch-1234 mr ").toList ['M', 'R'] = false ∧
    Script1.normalize_code.qualMatch (Script1.normalize_code " ch-1234 mr ").toList = none ∧
    Script1.normalize_code (Script1.normalize_code " ch-1234 mr ")
      = Script1.normalize_code " ch-1234 mr " := by
  refine ⟨by decide, by decide, by decide, ?_⟩
  exact c3_amended " ch-1234 mr " (by decide) (by decide) (by decide)
